import Mathlib

/-!
Shallow embedding of the `EulerianFluid2D` stable-fluids solver
(`src/unnamed/part_003`) over exact rationals.  Each `Float32Array` field
becomes a total function `ℤ → ℚ`; in-place loops become left folds over the
iteration sequence in source order, so Gauss-Seidel sweeps read already
updated neighbour values exactly as the source does.  `Math.sqrt` and
`Math.hypot` are passed in as explicit function parameters, since the claims
under study do not depend on their numeric values.
-/

namespace EulerianFluid2D

/-- Configuration record, from `SimulationParameters` in
`src/src/core/PointerController.ts`. -/
structure SimulationParameters where
  resolution : ℕ
  viscosity : ℚ
  diffusion : ℚ
  dissipation : ℚ
  curlStrength : ℚ
  pressureIterations : ℕ
deriving DecidableEq

/-- A grid field: the embedding of one `Float32Array` of length `(N+2)²`,
indexed by the linear index produced by `IX`. -/
def Grid : Type := ℤ → ℚ

/-- Pointwise update of a grid cell, the embedding of `arr[idx] = v`. -/
def upd (f : Grid) (idx : ℤ) (v : ℚ) : Grid := fun k => if k = idx then v else f k

/-- Linear cell index: `x + (size + 2) * y`, from `EulerianFluid2D.IX`. -/
def IX (N : ℕ) (x y : ℤ) : ℤ := x + ((N : ℤ) + 2) * y

/-- Iteration sequence of a doubly nested loop
`for (j = off; j <= off+n-1; j++) for (i = off; i <= off+n-1; i++)`,
listing the visited `(i, j)` pairs in source order (row-major, `j` outer). -/
def cellList (n : ℕ) (off : ℤ) : List (ℤ × ℤ) :=
  (List.range n).flatMap fun (j : ℕ) =>
    (List.range n).map fun (i : ℕ) => ((i : ℤ) + off, (j : ℤ) + off)

/-- One iteration of the edge loop of `EulerianFluid2D.setBounds`: the four
ghost-edge stores for column/row `i = k + 1`, in source order, each reading
the array state left by the previous store. -/
def sbeBody (N : ℕ) (b : ℕ) (x : Grid) (k : ℕ) : Grid :=
  let i : ℤ := (k : ℤ) + 1
  let x1 := upd x (IX N 0 i) (if b = 1 then -x (IX N 1 i) else x (IX N 1 i))
  let x2 := upd x1 (IX N ((N : ℤ) + 1) i)
    (if b = 1 then -x1 (IX N (N : ℤ) i) else x1 (IX N (N : ℤ) i))
  let x3 := upd x2 (IX N i 0) (if b = 2 then -x2 (IX N i 1) else x2 (IX N i 1))
  upd x3 (IX N i ((N : ℤ) + 1))
    (if b = 2 then -x3 (IX N i (N : ℤ)) else x3 (IX N i (N : ℤ)))

/-- Edge pass of `EulerianFluid2D.setBounds`: the edge loop over `1..N`. -/
def setBoundsEdges (N : ℕ) (b : ℕ) (x : Grid) : Grid :=
  (List.range N).foldl (sbeBody N b) x

/-- Boundary rule of `EulerianFluid2D.setBounds`: the edge pass followed by
the four corner stores. -/
def setBounds (N : ℕ) (b : ℕ) (x : Grid) : Grid :=
  let xe := setBoundsEdges N b x
  let c1 := upd xe (IX N 0 0) ((1 / 2) * (xe (IX N 1 0) + xe (IX N 0 1)))
  let c2 := upd c1 (IX N 0 ((N : ℤ) + 1))
    ((1 / 2) * (c1 (IX N 1 ((N : ℤ) + 1)) + c1 (IX N 0 (N : ℤ))))
  let c3 := upd c2 (IX N ((N : ℤ) + 1) 0)
    ((1 / 2) * (c2 (IX N (N : ℤ) 0) + c2 (IX N ((N : ℤ) + 1) 1)))
  upd c3 (IX N ((N : ℤ) + 1) ((N : ℤ) + 1))
    ((1 / 2) * (c3 (IX N (N : ℤ) ((N : ℤ) + 1)) + c3 (IX N ((N : ℤ) + 1) (N : ℤ))))

/-- One cell update of the `EulerianFluid2D.linearSolve` sweep: the store to
cell `p` reading the current (partially updated) array. -/
def lsBody (N : ℕ) (a c : ℚ) (x0 : Grid) (x : Grid) (p : ℤ × ℤ) : Grid :=
  upd x (IX N p.1 p.2)
    ((x0 (IX N p.1 p.2) +
        a * (x (IX N (p.1 - 1) p.2) + x (IX N (p.1 + 1) p.2) +
             x (IX N p.1 (p.2 - 1)) + x (IX N p.1 (p.2 + 1)))) / c)

/-- One in-place Gauss-Seidel sweep of `EulerianFluid2D.linearSolve`: every
interior cell is rewritten in source order, each read seeing the stores
already performed during the same sweep. -/
def lsSweep (N : ℕ) (a c : ℚ) (x0 : Grid) (x : Grid) : Grid :=
  (cellList N 1).foldl (lsBody N a c x0) x

/-- The `EulerianFluid2D.linearSolve` relaxation loop: `K` iterations, each a
full sweep followed by `setBounds`. -/
def linearSolve (N K : ℕ) (b : ℕ) (x x0 : Grid) (a c : ℚ) : Grid :=
  (fun f => setBounds N b (lsSweep N a c x0 f))^[K] x

/-- The `EulerianFluid2D.diffuse` routine: a relaxation solve with
coefficient `a = dt * diff * N * N` and divisor `1 + 4a`. -/
def diffuse (N K : ℕ) (b : ℕ) (x x0 : Grid) (diff dt : ℚ) : Grid :=
  let a := dt * diff * (N : ℚ) * (N : ℚ)
  linearSolve N K b x x0 a (1 + 4 * a)

/-- One cell update of `EulerianFluid2D.advect`: semi-Lagrangian backtrace
from cell `p` with the two per-axis clamps to `[0.5, N + 0.5]` and bilinear
resampling of `d0`. -/
def advBody (N : ℕ) (dt0 : ℚ) (d0 velocX velocY : Grid) (d : Grid) (p : ℤ × ℤ) : Grid :=
  let i : ℤ := p.1
  let j : ℤ := p.2
  let x := (i : ℚ) - dt0 * velocX (IX N i j)
  let y := (j : ℚ) - dt0 * velocY (IX N i j)
  let x := if x < 1 / 2 then 1 / 2 else x
  let x := if x > (N : ℚ) + 1 / 2 then (N : ℚ) + 1 / 2 else x
  let i0 : ℤ := ⌊x⌋
  let i1 : ℤ := i0 + 1
  let y := if y < 1 / 2 then 1 / 2 else y
  let y := if y > (N : ℚ) + 1 / 2 then (N : ℚ) + 1 / 2 else y
  let j0 : ℤ := ⌊y⌋
  let j1 : ℤ := j0 + 1
  let s1 := x - (i0 : ℚ)
  let s0 := 1 - s1
  let t1 := y - (j0 : ℚ)
  let t0 := 1 - t1
  upd d (IX N i j)
    (s0 * (t0 * d0 (IX N i0 j0) + t1 * d0 (IX N i0 j1)) +
     s1 * (t0 * d0 (IX N i1 j0) + t1 * d0 (IX N i1 j1)))

/-- The `EulerianFluid2D.advect` routine: the backtrace loop over every
interior cell followed by a final `setBounds` on the destination. -/
def advect (N : ℕ) (b : ℕ) (d d0 velocX velocY : Grid) (dt : ℚ) : Grid :=
  let dt0 := dt * (N : ℚ)
  setBounds N b ((cellList N 1).foldl (advBody N dt0 d0 velocX velocY) d)

/-- One cell update of the first loop of `EulerianFluid2D.project`: the
divergence store followed by the pressure-scratch zero store, on the
`(p, div)` buffer pair. -/
def prjDivBody (N : ℕ) (velocX velocY : Grid) (pd : Grid × Grid) (c : ℤ × ℤ) :
    Grid × Grid :=
  let i := c.1
  let j := c.2
  let div1 := upd pd.2 (IX N i j)
    (-(1 / 2) * (velocX (IX N (i + 1) j) - velocX (IX N (i - 1) j) +
                 velocY (IX N i (j + 1)) - velocY (IX N i (j - 1))) / (N : ℚ))
  let p1 := upd pd.1 (IX N i j) 0
  (p1, div1)

/-- One cell update of the gradient-subtraction loop of
`EulerianFluid2D.project`, on the `(velocX, velocY)` buffer pair. -/
def prjGradBody (N : ℕ) (p3 : Grid) (v : Grid × Grid) (c : ℤ × ℤ) : Grid × Grid :=
  let i := c.1
  let j := c.2
  let vx := upd v.1 (IX N i j)
    (v.1 (IX N i j) - (1 / 2) * (N : ℚ) * (p3 (IX N (i + 1) j) - p3 (IX N (i - 1) j)))
  let vy := upd v.2 (IX N i j)
    (v.2 (IX N i j) - (1 / 2) * (N : ℚ) * (p3 (IX N i (j + 1)) - p3 (IX N i (j - 1))))
  (vx, vy)

/-- The `EulerianFluid2D.project` routine.  Returns the updated
`(velocX, velocY, p, div)` buffers in that order. -/
def project (N K : ℕ) (velocX velocY p div : Grid) : Grid × Grid × Grid × Grid :=
  let pd := (cellList N 1).foldl (prjDivBody N velocX velocY) (p, div)
  let div2 := setBounds N 0 pd.2
  let p2 := setBounds N 0 pd.1
  let p3 := linearSolve N K 0 p2 div2 1 4
  let vv := (cellList N 1).foldl (prjGradBody N p3) (velocX, velocY)
  (setBounds N 1 vv.1, setBounds N 2 vv.2, p3, div2)

/-- One cell update of the curl loop of
`EulerianFluid2D.applyVorticityConfinement`. -/
def vortCurlBody (N : ℕ) (velocX velocY : Grid) (cu : Grid) (c : ℤ × ℤ) : Grid :=
  let i := c.1
  let j := c.2
  upd cu (IX N i j)
    ((1 / 2) * ((velocY (IX N (i + 1) j) - velocY (IX N (i - 1) j)) -
                (velocX (IX N i (j + 1)) - velocX (IX N i (j - 1)))))

/-- One cell update of the force loop of
`EulerianFluid2D.applyVorticityConfinement`, on the `(velocX, velocY)`
buffer pair. -/
def vortForceBody (N : ℕ) (epsilon : ℚ) (hypotFn : ℚ → ℚ → ℚ) (curl1 : Grid)
    (dt : ℚ) (v : Grid × Grid) (c : ℤ × ℤ) : Grid × Grid :=
  let i := c.1
  let j := c.2
  let nx0 := (|curl1 (IX N (i + 1) j)| - |curl1 (IX N (i - 1) j)|) * (1 / 2)
  let ny0 := (|curl1 (IX N i (j + 1))| - |curl1 (IX N i (j - 1))|) * (1 / 2)
  let len := hypotFn nx0 ny0 + 1 / 100000
  let nx := nx0 / len
  let ny := ny0 / len
  let force := epsilon * curl1 (IX N i j)
  (upd v.1 (IX N i j) (v.1 (IX N i j) + ny * (-force) * dt),
   upd v.2 (IX N i j) (v.2 (IX N i j) + nx * force * dt))

/-- The `EulerianFluid2D.applyVorticityConfinement` routine, with `Math.hypot`
passed in as `hypotFn`.  Returns `(velocX, velocY, curl)`. -/
def applyVorticityConfinement (N : ℕ) (epsilon : ℚ) (hypotFn : ℚ → ℚ → ℚ)
    (velocX velocY curl : Grid) (dt : ℚ) : Grid × Grid × Grid :=
  if epsilon ≤ 0 then (velocX, velocY, curl)
  else
    let curl1 := (cellList N 1).foldl (vortCurlBody N velocX velocY) curl
    let vv := (cellList N 1).foldl (vortForceBody N epsilon hypotFn curl1 dt)
      (velocX, velocY)
    (setBounds N 1 vv.1, setBounds N 2 vv.2, curl1)

/-- One cell update of the `EulerianFluid2D.applyDissipation` loop. -/
def disBody (factor : ℚ) (d : Grid) (i : ℕ) : Grid :=
  upd d (i : ℤ) (d (i : ℤ) * factor)

/-- The `EulerianFluid2D.applyDissipation` loop: every cell of the density
array (length `gsz = (N+2)²`) is multiplied by the dissipation factor. -/
def applyDissipation (gsz : ℕ) (factor : ℚ) (density : Grid) : Grid :=
  (List.range gsz).foldl (disBody factor) density

/-- Full solver state: the configuration, the cached grid side length
`this.size`, and the seven field arrays. -/
structure FluidState where
  config : SimulationParameters
  size : ℕ
  velocityX : Grid
  velocityY : Grid
  velocityXPrev : Grid
  velocityYPrev : Grid
  density : Grid
  densityPrev : Grid
  curl : Grid

/-- The `EulerianFluid2D` constructor: all fields zero-allocated at the
configured resolution. -/
def construct (config : SimulationParameters) : FluidState :=
  { config := config, size := config.resolution,
    velocityX := fun _ => 0, velocityY := fun _ => 0,
    velocityXPrev := fun _ => 0, velocityYPrev := fun _ => 0,
    density := fun _ => 0, densityPrev := fun _ => 0, curl := fun _ => 0 }

/-- The `EulerianFluid2D.resize` routine: adopt the new side length and
reallocate (zero) every field. -/
def resize (s : FluidState) (resolution : ℕ) : FluidState :=
  { s with
    size := resolution,
    velocityX := fun _ => 0, velocityY := fun _ => 0,
    velocityXPrev := fun _ => 0, velocityYPrev := fun _ => 0,
    density := fun _ => 0, densityPrev := fun _ => 0, curl := fun _ => 0 }

/-- The `EulerianFluid2D.updateConfig` routine: resize (which zeroes all
fields) exactly when the resolution changed, in every case adopting the new
configuration. -/
def updateConfig (s : FluidState) (config : SimulationParameters) : FluidState :=
  if config.resolution ≠ s.config.resolution then
    resize { s with config := config } config.resolution
  else
    { s with config := config }

/-- The `EulerianFluid2D.step` routine: the eight phases in source order,
wiring the current and `Prev` buffers exactly as the source does. -/
def step (hypotFn : ℚ → ℚ → ℚ) (s : FluidState) (dt : ℚ) : FluidState :=
  let N := s.size
  let K := s.config.pressureIterations
  let visc := s.config.viscosity
  let diff := s.config.diffusion
  let vxp1 := diffuse N K 1 s.velocityXPrev s.velocityX visc dt
  let vyp1 := diffuse N K 2 s.velocityYPrev s.velocityY visc dt
  let pr1 := project N K vxp1 vyp1 s.velocityX s.velocityY
  let vx3 := advect N 1 pr1.2.2.1 pr1.1 pr1.1 pr1.2.1 dt
  let vy3 := advect N 2 pr1.2.2.2 pr1.2.1 pr1.1 pr1.2.1 dt
  let vo := applyVorticityConfinement N s.config.curlStrength hypotFn vx3 vy3 s.curl dt
  let pr2 := project N K vo.1 vo.2.1 pr1.1 pr1.2.1
  let dp1 := diffuse N K 0 s.densityPrev s.density diff dt
  let d1 := advect N 0 s.density dp1 pr2.1 pr2.2.1 dt
  let d2 := applyDissipation ((N + 2) * (N + 2)) s.config.dissipation d1
  { config := s.config, size := s.size,
    velocityX := pr2.1, velocityY := pr2.2.1,
    velocityXPrev := pr2.2.2.1, velocityYPrev := pr2.2.2.2,
    density := d2, densityPrev := dp1, curl := vo.2.2 }

/-- Step sequence written from the words of the spec (§4.7): 1. diffuse both
velocity components into the `Prev` buffers with viscosity; 2. project the
`Prev` buffers; 3. advect both velocity components from `Prev` (serving as
both moved field and tracing velocity) into the current buffers; 4. apply
vorticity confinement to the current buffers; 5. project the current buffers
using the `Prev` buffers as pressure/divergence scratch; 6. diffuse density
into `densityPrev` with the dye diffusion rate; 7. advect density from
`densityPrev` by the final velocity; 8. multiply every dye cell by the
dissipation factor. -/
def stepSpec (hypotFn : ℚ → ℚ → ℚ) (s : FluidState) (dt : ℚ) : FluidState :=
  let N := s.size
  let K := s.config.pressureIterations
  let vxDiffused := diffuse N K 1 s.velocityXPrev s.velocityX s.config.viscosity dt
  let vyDiffused := diffuse N K 2 s.velocityYPrev s.velocityY s.config.viscosity dt
  let projected1 := project N K vxDiffused vyDiffused s.velocityX s.velocityY
  let vxAdvected := advect N 1 projected1.2.2.1 projected1.1 projected1.1 projected1.2.1 dt
  let vyAdvected := advect N 2 projected1.2.2.2 projected1.2.1 projected1.1 projected1.2.1 dt
  let confined :=
    applyVorticityConfinement N s.config.curlStrength hypotFn vxAdvected vyAdvected s.curl dt
  let projected2 := project N K confined.1 confined.2.1 projected1.1 projected1.2.1
  let dyeDiffused := diffuse N K 0 s.densityPrev s.density s.config.diffusion dt
  let dyeAdvected := advect N 0 s.density dyeDiffused projected2.1 projected2.2.1 dt
  let dyeDissipated := applyDissipation ((N + 2) * (N + 2)) s.config.dissipation dyeAdvected
  { config := s.config, size := s.size,
    velocityX := projected2.1, velocityY := projected2.2.1,
    velocityXPrev := projected2.2.2.1, velocityYPrev := projected2.2.2.2,
    density := dyeDissipated, densityPrev := dyeDiffused, curl := confined.2.2 }

/-- One cell update of the `EulerianFluid2D.addImpulse` loop: skip when the
target cell is outside the interior or the falloff weight is not positive,
otherwise accumulate dye. -/
def impBody (sqrtFn : ℚ → ℚ) (N : ℕ) (centerX centerY r : ℤ) (impulse : ℚ)
    (d : Grid) (off : ℤ × ℤ) : Grid :=
  let px := centerX + off.1
  let py := centerY + off.2
  if px < 1 ∨ px > (N : ℤ) ∨ py < 1 ∨ py > (N : ℤ) then d
  else
    let weight := 1 - sqrtFn ((off.1 : ℚ) * (off.1 : ℚ) + (off.2 : ℚ) * (off.2 : ℚ)) / (r : ℚ)
    if weight ≤ 0 then d
    else upd d (IX N px py) (d (IX N px py) + impulse * weight * (1 / 100))

/-- The `EulerianFluid2D.addImpulse` routine, with `Math.sqrt` passed in as
`sqrtFn`. -/
def addImpulse (sqrtFn : ℚ → ℚ) (s : FluidState) (x y radius strength audioFactor : ℚ) :
    FluidState :=
  let N := s.size
  let r : ℤ := max ⌊radius * (N : ℚ)⌋ 1
  let centerX : ℤ := ⌊x * (N : ℚ)⌋
  let centerY : ℤ := ⌊y * (N : ℚ)⌋
  let impulse := strength * (1 + audioFactor)
  let density1 := (cellList (2 * r.toNat + 1) (-r)).foldl
    (impBody sqrtFn N centerX centerY r impulse) s.density
  { s with density := density1 }

/-- The `EulerianFluid2D.addVelocityImpulse` routine. -/
def addVelocityImpulse (s : FluidState) (x y vx vy forceStrength : ℚ) : FluidState :=
  let N := s.size
  let px : ℤ := ⌊x * (N : ℚ)⌋
  let py : ℤ := ⌊y * (N : ℚ)⌋
  if px < 1 ∨ px > (N : ℤ) ∨ py < 1 ∨ py > (N : ℤ) then s
  else
    let idx := IX N px py
    { s with
      velocityX := upd s.velocityX idx (s.velocityX idx + vx / 1000 * forceStrength),
      velocityY := upd s.velocityY idx (s.velocityY idx + vy / 1000 * forceStrength) }

/-- Result record of `getDyeField`. -/
structure DyeField where
  size : ℕ
  data : List ℚ
deriving DecidableEq

/-- The `EulerianFluid2D.getDyeField` routine: the interior `N×N` block of
`density` in row-major order, each value clamped to `[0, 1]` by
`min 1 (max 0 v)`. -/
def getDyeField (s : FluidState) : DyeField :=
  let N := s.size
  { size := N,
    data := (List.range N).flatMap fun (ym1 : ℕ) =>
      (List.range N).map fun (xm1 : ℕ) =>
        min 1 (max 0 (s.density (IX N ((xm1 : ℤ) + 1) ((ym1 : ℤ) + 1)))) }

/-- Total summed dye over the whole allocated array, the quantity the spec's
decay property speaks about. -/
def totalDye (s : FluidState) : ℚ :=
  ((List.range ((s.size + 2) * (s.size + 2))).map fun (i : ℕ) => s.density (i : ℤ)).sum

/-- Concrete stand-in for `Math.hypot` used in closed witnesses. -/
def demoHypot : ℚ → ℚ → ℚ := fun _ _ => 0

/-- Concrete stand-in for `Math.sqrt` used in closed witnesses: the integer
square root, exact on the perfect squares the witnesses evaluate it at. -/
def demoSqrt (q : ℚ) : ℚ := (Nat.sqrt q.num.toNat : ℚ)

/-- Concrete configuration for closed witnesses. -/
def demoCfg : SimulationParameters :=
  { resolution := 4, viscosity := 0, diffusion := 0, dissipation := 1,
    curlStrength := 0, pressureIterations := 1 }

/-- Concrete zero-field state for closed witnesses. -/
def demoState : FluidState := construct demoCfg

/-- Concrete configuration with dissipation below one, for the decay claim. -/
def demoCfg8 : SimulationParameters :=
  { resolution := 2, viscosity := 0, diffusion := 0, dissipation := 1 / 2,
    curlStrength := 0, pressureIterations := 1 }

/-- Concrete zero-field state with dissipation below one. -/
def demoState8 : FluidState := construct demoCfg8

/-- All-zero grid, used by concrete witnesses. -/
def zg : Grid := fun _ => 0

theorem upd_same (f : Grid) (i : ℤ) (v : ℚ) : upd f i v i = v := if_pos rfl

theorem upd_ne (f : Grid) (i : ℤ) (v : ℚ) {j : ℤ} (h : j ≠ i) : upd f i v j = f j := if_neg h

/-- Cells whose x-coordinates lie inside the allocated row width have equal
linear indices exactly when they are the same cell. -/
theorem IX_eq_iff (N : ℕ) {a b c d : ℤ} (ha : 0 ≤ a) (ha2 : a ≤ (N : ℤ) + 1)
    (hc : 0 ≤ c) (hc2 : c ≤ (N : ℤ) + 1) : IX N a b = IX N c d ↔ a = c ∧ b = d := by
  constructor
  · intro h
    unfold IX at h
    have hdvd : ((N : ℤ) + 2) ∣ (a - c) := ⟨d - b, by linarith⟩
    have h0 : a - c = 0 := Int.eq_zero_of_abs_lt_dvd hdvd (by rw [abs_lt]; omega)
    have hac : a = c := by omega
    refine ⟨hac, ?_⟩
    have h2 : ((N : ℤ) + 2) * b = ((N : ℤ) + 2) * d := by linarith
    exact mul_left_cancel₀ (by omega) h2
  · rintro ⟨rfl, rfl⟩
    rfl

/-- Distinct cells inside the allocated row width have distinct linear
indices. -/
theorem IX_ne (N : ℕ) {a b c d : ℤ} (ha : 0 ≤ a) (ha2 : a ≤ (N : ℤ) + 1)
    (hc : 0 ≤ c) (hc2 : c ≤ (N : ℤ) + 1) (h : ¬(a = c ∧ b = d)) :
    IX N a b ≠ IX N c d :=
  fun he => h ((IX_eq_iff N ha ha2 hc hc2).mp he)

/-- If every step of a fold preserves an observation, the fold preserves it. -/
theorem foldl_obs_eq {σ α β : Type*} (body : σ → α → σ) (obs : σ → β) :
    ∀ (L : List α) (s : σ), (∀ t a, a ∈ L → obs (body t a) = obs t) →
      obs (L.foldl body s) = obs s := by
  intro L
  induction L with
  | nil => intro s _; rfl
  | cons a L ih =>
      intro s h
      rw [List.foldl_cons, ih _ (fun t b hb => h t b (List.mem_cons_of_mem a hb))]
      exact h s a (List.mem_cons_self a L)

/-- If every step of a fold preserves a predicate, the fold preserves it. -/
theorem foldl_pred {σ α : Type*} (body : σ → α → σ) (P : σ → Prop) :
    ∀ (L : List α) (s : σ), (∀ t a, a ∈ L → P t → P (body t a)) → P s →
      P (L.foldl body s) := by
  intro L
  induction L with
  | nil => intro s _ hs; exact hs
  | cons a L ih =>
      intro s h hs
      rw [List.foldl_cons]
      exact ih _ (fun t b hb => h t b (List.mem_cons_of_mem a hb))
        (h s a (List.mem_cons_self a L) hs)

/-- Two folds whose bodies agree on the traversed list agree. -/
theorem foldl_congr_body {σ α : Type*} (b1 b2 : σ → α → σ) :
    ∀ (L : List α) (s : σ), (∀ t a, a ∈ L → b1 t a = b2 t a) →
      L.foldl b1 s = L.foldl b2 s := by
  intro L
  induction L with
  | nil => intro s _; rfl
  | cons a L ih =>
      intro s h
      rw [List.foldl_cons, List.foldl_cons, h s a (List.mem_cons_self a L)]
      exact ih _ (fun t b hb => h t b (List.mem_cons_of_mem a hb))

/-- Splitting `List.range n` at an interior point `k`. -/
theorem range_split {k n : ℕ} (h : k < n) :
    List.range n = List.range k ++ k :: List.range' (k + 1) (n - k - 1) := by
  have e2 : (n - k - 1) + 1 = n - k := by omega
  have h1 : List.range' k (n - k) = k :: List.range' (k + 1) (n - k - 1) := by
    conv_lhs => rw [← e2, List.range'_succ]
  rw [← h1, List.range_eq_range', List.range_eq_range']
  have h2 := List.range'_append 0 k (n - k) 1
  have e3 : 0 + 1 * k = k := by omega
  rw [e3] at h2
  rw [h2]
  congr 1
  omega

theorem flatMap_split {α β : Type*} (f : α → List β) {L A B : List α} {a : α}
    (h : L = A ++ a :: B) :
    L.flatMap f = A.flatMap f ++ (f a ++ B.flatMap f) := by
  rw [h, List.flatMap_append, List.flatMap_cons]

theorem map_split {α β : Type*} (f : α → β) {L A B : List α} {a : α}
    (h : L = A ++ a :: B) :
    L.map f = A.map f ++ (f a :: B.map f) := by
  rw [h, List.map_append, List.map_cons]

/-- Membership in the nested-loop iteration sequence. -/
theorem mem_cellList {n : ℕ} {off : ℤ} {p : ℤ × ℤ} :
    p ∈ cellList n off ↔
      off ≤ p.1 ∧ p.1 < off + n ∧ off ≤ p.2 ∧ p.2 < off + n := by
  obtain ⟨p1, p2⟩ := p
  constructor
  · intro hmem
    obtain ⟨j, hjmem, hq⟩ := List.mem_flatMap.mp hmem
    obtain ⟨i, himem, heq⟩ := List.mem_map.mp hq
    rw [List.mem_range] at hjmem himem
    injection heq with e1 e2
    subst e1
    subst e2
    refine ⟨by simp, by simp; omega, by simp, by simp; omega⟩
  · intro h
    obtain ⟨h1, h2, h3, h4⟩ := h
    refine List.mem_flatMap.mpr ⟨(p2 - off).toNat, List.mem_range.mpr (by omega),
      List.mem_map.mpr ⟨(p1 - off).toNat, List.mem_range.mpr (by omega), ?_⟩⟩
    simp only [Prod.mk.injEq]
    constructor <;> omega

/-- Splitting the nested-loop iteration sequence at a visited cell: the
earlier cells are exactly those before it in row-major order and the later
cells those after it. -/
theorem cellList_split {n : ℕ} {off : ℤ} {p : ℤ × ℤ} (hp : p ∈ cellList n off) :
    ∃ A B, cellList n off = A ++ p :: B ∧
      (∀ q ∈ A, q ∈ cellList n off ∧ (q.2 < p.2 ∨ (q.2 = p.2 ∧ q.1 < p.1))) ∧
      (∀ q ∈ B, q ∈ cellList n off ∧ (p.2 < q.2 ∨ (q.2 = p.2 ∧ p.1 < q.1))) := by
  obtain ⟨hb1, hb2, hb3, hb4⟩ := mem_cellList.mp hp
  set j0 : ℕ := (p.2 - off).toNat with hj0def
  set i0 : ℕ := (p.1 - off).toNat with hi0def
  have hj0 : j0 < n := by omega
  have hi0 : i0 < n := by omega
  have hgp : ((i0 : ℤ) + off, (j0 : ℤ) + off) = p := by
    apply Prod.ext <;> dsimp only <;> omega
  have hrowsplit :
      ((List.range n).map fun (i : ℕ) => ((i : ℤ) + off, (j0 : ℤ) + off)) =
      ((List.range i0).map fun (i : ℕ) => ((i : ℤ) + off, (j0 : ℤ) + off)) ++
        (p :: ((List.range' (i0 + 1) (n - i0 - 1)).map
          fun (i : ℕ) => ((i : ℤ) + off, (j0 : ℤ) + off))) := by
    rw [map_split _ (range_split hi0)]
    rw [hgp]
  refine ⟨((List.range j0).flatMap fun (j : ℕ) =>
        (List.range n).map fun (i : ℕ) => ((i : ℤ) + off, (j : ℤ) + off)) ++
      ((List.range i0).map fun (i : ℕ) => ((i : ℤ) + off, (j0 : ℤ) + off)),
    ((List.range' (i0 + 1) (n - i0 - 1)).map
        fun (i : ℕ) => ((i : ℤ) + off, (j0 : ℤ) + off)) ++
      ((List.range' (j0 + 1) (n - j0 - 1)).flatMap fun (j : ℕ) =>
        (List.range n).map fun (i : ℕ) => ((i : ℤ) + off, (j : ℤ) + off)), ?_, ?_, ?_⟩
  · show ((List.range n).flatMap fun (j : ℕ) =>
        (List.range n).map fun (i : ℕ) => ((i : ℤ) + off, (j : ℤ) + off)) = _
    rw [flatMap_split _ (range_split hj0)]
    rw [hrowsplit]
    simp [List.append_assoc, List.cons_append]
  · intro q hq
    rcases List.mem_append.mp hq with hq1 | hq2
    · obtain ⟨j, hj, hqr⟩ := List.mem_flatMap.mp hq1
      obtain ⟨i, hi, rfl⟩ := List.mem_map.mp hqr
      rw [List.mem_range] at hj hi
      refine ⟨mem_cellList.mpr ⟨by dsimp only; omega, by dsimp only; omega, by dsimp only; omega,
        by dsimp only; omega⟩, Or.inl (by dsimp only; omega)⟩
    · obtain ⟨i, hi, rfl⟩ := List.mem_map.mp hq2
      rw [List.mem_range] at hi
      refine ⟨mem_cellList.mpr ⟨by dsimp only; omega, by dsimp only; omega, by dsimp only; omega,
        by dsimp only; omega⟩, Or.inr ⟨by dsimp only; omega, by dsimp only; omega⟩⟩
  · intro q hq
    rcases List.mem_append.mp hq with hq1 | hq2
    · obtain ⟨i, hi, rfl⟩ := List.mem_map.mp hq1
      rw [List.mem_range'_1] at hi
      refine ⟨mem_cellList.mpr ⟨by dsimp only; omega, by dsimp only; omega, by dsimp only; omega,
        by dsimp only; omega⟩, Or.inr ⟨by dsimp only; omega, by dsimp only; omega⟩⟩
    · obtain ⟨j, hj, hqr⟩ := List.mem_flatMap.mp hq2
      obtain ⟨i, hi, rfl⟩ := List.mem_map.mp hqr
      rw [List.mem_range'_1] at hj
      rw [List.mem_range] at hi
      refine ⟨mem_cellList.mpr ⟨by dsimp only; omega, by dsimp only; omega, by dsimp only; omega,
        by dsimp only; omega⟩, Or.inl (by dsimp only; omega)⟩

/-- Packed-hypothesis form of `IX_ne`, convenient for `omega`. -/
theorem IX_ne_of (N : ℕ) {a b c d : ℤ}
    (h : 0 ≤ a ∧ a ≤ (N : ℤ) + 1 ∧ 0 ≤ c ∧ c ≤ (N : ℤ) + 1 ∧ ¬(a = c ∧ b = d)) :
    IX N a b ≠ IX N c d :=
  IX_ne N h.1 h.2.1 h.2.2.1 h.2.2.2.1 h.2.2.2.2

/-- One edge-loop iteration leaves every index other than its four ghost
targets unchanged. -/
theorem sbeBody_preserve (N b : ℕ) (t : Grid) (k : ℕ) {idx : ℤ}
    (h1 : idx ≠ IX N 0 ((k : ℤ) + 1)) (h2 : idx ≠ IX N ((N : ℤ) + 1) ((k : ℤ) + 1))
    (h3 : idx ≠ IX N ((k : ℤ) + 1) 0) (h4 : idx ≠ IX N ((k : ℤ) + 1) ((N : ℤ) + 1)) :
    sbeBody N b t k idx = t idx := by
  unfold sbeBody
  rw [upd_ne _ _ _ h4, upd_ne _ _ _ h3, upd_ne _ _ _ h2, upd_ne _ _ _ h1]

/-- The edge pass leaves every index outside its ghost-edge write set
unchanged. -/
theorem setBoundsEdges_preserve (N b : ℕ) (x : Grid) {idx : ℤ}
    (h : ∀ i : ℤ, 1 ≤ i → i ≤ (N : ℤ) →
      idx ≠ IX N 0 i ∧ idx ≠ IX N ((N : ℤ) + 1) i ∧ idx ≠ IX N i 0 ∧
      idx ≠ IX N i ((N : ℤ) + 1)) :
    setBoundsEdges N b x idx = x idx := by
  unfold setBoundsEdges
  exact foldl_obs_eq (sbeBody N b) (fun f => f idx) (List.range N) x
    (fun t k hk => by
      have hk' := List.mem_range.mp hk
      obtain ⟨h1, h2, h3, h4⟩ := h ((k : ℤ) + 1) (by omega) (by omega)
      exact sbeBody_preserve N b t k h1 h2 h3 h4)

/-- Splitting a fold over `List.range N` at iteration `k0`. -/
theorem foldl_range_split {σ : Type*} (body : σ → ℕ → σ) (s : σ) {k0 N : ℕ}
    (h : k0 < N) :
    (List.range N).foldl body s =
      (List.range' (k0 + 1) (N - k0 - 1)).foldl body
        (body ((List.range k0).foldl body s) k0) := by
  rw [range_split h, List.foldl_append, List.foldl_cons]

/-- The boundary rule leaves every index outside the ghost ring unchanged. -/
theorem setBounds_preserve (N b : ℕ) (x : Grid) {idx : ℤ}
    (h : ∀ i : ℤ, 0 ≤ i → i ≤ (N : ℤ) + 1 →
      idx ≠ IX N 0 i ∧ idx ≠ IX N ((N : ℤ) + 1) i ∧ idx ≠ IX N i 0 ∧
      idx ≠ IX N i ((N : ℤ) + 1)) :
    setBounds N b x idx = x idx := by
  unfold setBounds
  obtain ⟨hA, hB, _, _⟩ := h 0 (by omega) (by omega)
  obtain ⟨hC, hD, _, _⟩ := h ((N : ℤ) + 1) (by omega) (by omega)
  rw [upd_ne _ _ _ hD, upd_ne _ _ _ hB, upd_ne _ _ _ hC, upd_ne _ _ _ hA]
  exact setBoundsEdges_preserve N b x (fun i hi1 hi2 => h i (by omega) (by omega))

/-- The boundary rule never modifies interior cells. -/
theorem setBounds_interior (N b : ℕ) (x : Grid) {a c : ℤ}
    (ha1 : 1 ≤ a) (ha2 : a ≤ (N : ℤ)) (hc1 : 1 ≤ c) (hc2 : c ≤ (N : ℤ)) :
    setBounds N b x (IX N a c) = x (IX N a c) := by
  apply setBounds_preserve
  intro i hi1 hi2
  exact ⟨IX_ne_of N (by omega), IX_ne_of N (by omega), IX_ne_of N (by omega),
    IX_ne_of N (by omega)⟩

/-- Evaluating the edge pass at a cell written only by iteration `j`. -/
theorem setBoundsEdges_split (N b : ℕ) (x : Grid) {j : ℤ} (hj1 : 1 ≤ j)
    (hj2 : j ≤ (N : ℤ)) {idx : ℤ}
    (hB : ∀ i : ℤ, 1 ≤ i → i ≤ (N : ℤ) → i ≠ j →
      idx ≠ IX N 0 i ∧ idx ≠ IX N ((N : ℤ) + 1) i ∧ idx ≠ IX N i 0 ∧
      idx ≠ IX N i ((N : ℤ) + 1)) :
    setBoundsEdges N b x idx =
      sbeBody N b ((List.range (j - 1).toNat).foldl (sbeBody N b) x) (j - 1).toNat idx := by
  have hk0 : (j - 1).toNat < N := by omega
  unfold setBoundsEdges
  rw [foldl_range_split (sbeBody N b) x hk0]
  exact foldl_obs_eq (sbeBody N b) (fun (f : Grid) => f idx) _ _
    (fun t k hk => by
      rw [List.mem_range'_1] at hk
      obtain ⟨h1, h2, h3, h4⟩ := hB ((k : ℤ) + 1) (by omega) (by omega) (by omega)
      exact sbeBody_preserve N b t k h1 h2 h3 h4)

/-- A partial run of the edge loop leaves indices outside its write set
unchanged. -/
theorem setBoundsEdges_partial_preserve (N b : ℕ) (x : Grid) (m : ℕ) {idx : ℤ}
    (h : ∀ i : ℤ, 1 ≤ i → i ≤ (m : ℤ) →
      idx ≠ IX N 0 i ∧ idx ≠ IX N ((N : ℤ) + 1) i ∧ idx ≠ IX N i 0 ∧
      idx ≠ IX N i ((N : ℤ) + 1)) :
    (List.range m).foldl (sbeBody N b) x idx = x idx :=
  foldl_obs_eq (sbeBody N b) (fun (f : Grid) => f idx) (List.range m) x
    (fun t k hk => by
      have hk' := List.mem_range.mp hk
      obtain ⟨h1, h2, h3, h4⟩ := h ((k : ℤ) + 1) (by omega) (by omega)
      exact sbeBody_preserve N b t k h1 h2 h3 h4)

/-- Value stored by one edge iteration into its left-column ghost target. -/
theorem sbeBody_at_left (N b : ℕ) (t : Grid) (k : ℕ) (hk : (k : ℤ) + 1 ≤ (N : ℤ)) :
    sbeBody N b t k (IX N 0 ((k : ℤ) + 1)) =
      if b = 1 then -t (IX N 1 ((k : ℤ) + 1)) else t (IX N 1 ((k : ℤ) + 1)) := by
  unfold sbeBody
  rw [upd_ne _ _ _ (IX_ne_of N (by omega)), upd_ne _ _ _ (IX_ne_of N (by omega)),
      upd_ne _ _ _ (IX_ne_of N (by omega)), upd_same]

/-- Value stored by one edge iteration into its right-column ghost target. -/
theorem sbeBody_at_right (N b : ℕ) (t : Grid) (k : ℕ) (hk : (k : ℤ) + 1 ≤ (N : ℤ)) :
    sbeBody N b t k (IX N ((N : ℤ) + 1) ((k : ℤ) + 1)) =
      if b = 1 then -t (IX N (N : ℤ) ((k : ℤ) + 1)) else t (IX N (N : ℤ) ((k : ℤ) + 1)) := by
  unfold sbeBody
  rw [upd_ne _ _ _ (IX_ne_of N (by omega)), upd_ne _ _ _ (IX_ne_of N (by omega)),
      upd_same, upd_ne _ _ _ (IX_ne_of N (by omega))]

/-- Value stored by one edge iteration into its bottom-row ghost target. -/
theorem sbeBody_at_bottom (N b : ℕ) (t : Grid) (k : ℕ) (hk : (k : ℤ) + 1 ≤ (N : ℤ)) :
    sbeBody N b t k (IX N ((k : ℤ) + 1) 0) =
      if b = 2 then -t (IX N ((k : ℤ) + 1) 1) else t (IX N ((k : ℤ) + 1) 1) := by
  unfold sbeBody
  rw [upd_ne _ _ _ (IX_ne_of N (by omega)), upd_same,
      upd_ne _ _ _ (IX_ne_of N (by omega)), upd_ne _ _ _ (IX_ne_of N (by omega))]

/-- Value stored by one edge iteration into its top-row ghost target. -/
theorem sbeBody_at_top (N b : ℕ) (t : Grid) (k : ℕ) (hk : (k : ℤ) + 1 ≤ (N : ℤ)) :
    sbeBody N b t k (IX N ((k : ℤ) + 1) ((N : ℤ) + 1)) =
      if b = 2 then -t (IX N ((k : ℤ) + 1) (N : ℤ)) else t (IX N ((k : ℤ) + 1) (N : ℤ)) := by
  unfold sbeBody
  rw [upd_same, upd_ne _ _ _ (IX_ne_of N (by omega)),
      upd_ne _ _ _ (IX_ne_of N (by omega)), upd_ne _ _ _ (IX_ne_of N (by omega))]

/-- Value stored in the left ghost column by the boundary rule. -/
theorem setBounds_left (N b : ℕ) (x : Grid) {j : ℤ} (hj1 : 1 ≤ j) (hj2 : j ≤ (N : ℤ)) :
    setBounds N b x (IX N 0 j) = if b = 1 then -x (IX N 1 j) else x (IX N 1 j) := by
  have hN : 1 ≤ (N : ℤ) := le_trans hj1 hj2
  have hjj : (((j - 1).toNat : ℤ) + 1) = j := by omega
  have hsb : setBounds N b x (IX N 0 j) = setBoundsEdges N b x (IX N 0 j) := by
    unfold setBounds
    rw [upd_ne _ _ _ (IX_ne_of N (by omega)), upd_ne _ _ _ (IX_ne_of N (by omega)),
        upd_ne _ _ _ (IX_ne_of N (by omega)), upd_ne _ _ _ (IX_ne_of N (by omega))]
  rw [hsb, setBoundsEdges_split N b x hj1 hj2 (fun i hi1 hi2 hne =>
    ⟨IX_ne_of N (by omega), IX_ne_of N (by omega), IX_ne_of N (by omega),
     IX_ne_of N (by omega)⟩)]
  rw [show (IX N 0 j) = (IX N 0 (((j - 1).toNat : ℤ) + 1)) from by rw [hjj]]
  rw [sbeBody_at_left N b _ ((j - 1).toNat) (by omega), hjj]
  rw [setBoundsEdges_partial_preserve N b x _ (fun i hi1 hi2 =>
    ⟨IX_ne_of N (by omega), IX_ne_of N (by omega), IX_ne_of N (by omega),
     IX_ne_of N (by omega)⟩)]

/-- Value stored in the right ghost column by the boundary rule. -/
theorem setBounds_right (N b : ℕ) (x : Grid) {j : ℤ} (hj1 : 1 ≤ j) (hj2 : j ≤ (N : ℤ)) :
    setBounds N b x (IX N ((N : ℤ) + 1) j) =
      if b = 1 then -x (IX N (N : ℤ) j) else x (IX N (N : ℤ) j) := by
  have hN : 1 ≤ (N : ℤ) := le_trans hj1 hj2
  have hjj : (((j - 1).toNat : ℤ) + 1) = j := by omega
  have hsb : setBounds N b x (IX N ((N : ℤ) + 1) j) =
      setBoundsEdges N b x (IX N ((N : ℤ) + 1) j) := by
    unfold setBounds
    rw [upd_ne _ _ _ (IX_ne_of N (by omega)), upd_ne _ _ _ (IX_ne_of N (by omega)),
        upd_ne _ _ _ (IX_ne_of N (by omega)), upd_ne _ _ _ (IX_ne_of N (by omega))]
  rw [hsb, setBoundsEdges_split N b x hj1 hj2 (fun i hi1 hi2 hne =>
    ⟨IX_ne_of N (by omega), IX_ne_of N (by omega), IX_ne_of N (by omega),
     IX_ne_of N (by omega)⟩)]
  rw [show (IX N ((N : ℤ) + 1) j) = (IX N ((N : ℤ) + 1) (((j - 1).toNat : ℤ) + 1)) from
    by rw [hjj]]
  rw [sbeBody_at_right N b _ ((j - 1).toNat) (by omega), hjj]
  rw [setBoundsEdges_partial_preserve N b x _ (fun i hi1 hi2 =>
    ⟨IX_ne_of N (by omega), IX_ne_of N (by omega), IX_ne_of N (by omega),
     IX_ne_of N (by omega)⟩)]

/-- Value stored in the bottom ghost row by the boundary rule. -/
theorem setBounds_bottom (N b : ℕ) (x : Grid) {j : ℤ} (hj1 : 1 ≤ j) (hj2 : j ≤ (N : ℤ)) :
    setBounds N b x (IX N j 0) = if b = 2 then -x (IX N j 1) else x (IX N j 1) := by
  have hN : 1 ≤ (N : ℤ) := le_trans hj1 hj2
  have hjj : (((j - 1).toNat : ℤ) + 1) = j := by omega
  have hsb : setBounds N b x (IX N j 0) = setBoundsEdges N b x (IX N j 0) := by
    unfold setBounds
    rw [upd_ne _ _ _ (IX_ne_of N (by omega)), upd_ne _ _ _ (IX_ne_of N (by omega)),
        upd_ne _ _ _ (IX_ne_of N (by omega)), upd_ne _ _ _ (IX_ne_of N (by omega))]
  rw [hsb, setBoundsEdges_split N b x hj1 hj2 (fun i hi1 hi2 hne =>
    ⟨IX_ne_of N (by omega), IX_ne_of N (by omega), IX_ne_of N (by omega),
     IX_ne_of N (by omega)⟩)]
  rw [show (IX N j 0) = (IX N (((j - 1).toNat : ℤ) + 1) 0) from by rw [hjj]]
  rw [sbeBody_at_bottom N b _ ((j - 1).toNat) (by omega), hjj]
  rw [setBoundsEdges_partial_preserve N b x _ (fun i hi1 hi2 =>
    ⟨IX_ne_of N (by omega), IX_ne_of N (by omega), IX_ne_of N (by omega),
     IX_ne_of N (by omega)⟩)]

/-- Value stored in the top ghost row by the boundary rule. -/
theorem setBounds_top (N b : ℕ) (x : Grid) {j : ℤ} (hj1 : 1 ≤ j) (hj2 : j ≤ (N : ℤ)) :
    setBounds N b x (IX N j ((N : ℤ) + 1)) =
      if b = 2 then -x (IX N j (N : ℤ)) else x (IX N j (N : ℤ)) := by
  have hN : 1 ≤ (N : ℤ) := le_trans hj1 hj2
  have hjj : (((j - 1).toNat : ℤ) + 1) = j := by omega
  have hsb : setBounds N b x (IX N j ((N : ℤ) + 1)) =
      setBoundsEdges N b x (IX N j ((N : ℤ) + 1)) := by
    unfold setBounds
    rw [upd_ne _ _ _ (IX_ne_of N (by omega)), upd_ne _ _ _ (IX_ne_of N (by omega)),
        upd_ne _ _ _ (IX_ne_of N (by omega)), upd_ne _ _ _ (IX_ne_of N (by omega))]
  rw [hsb, setBoundsEdges_split N b x hj1 hj2 (fun i hi1 hi2 hne =>
    ⟨IX_ne_of N (by omega), IX_ne_of N (by omega), IX_ne_of N (by omega),
     IX_ne_of N (by omega)⟩)]
  rw [show (IX N j ((N : ℤ) + 1)) = (IX N (((j - 1).toNat : ℤ) + 1) ((N : ℤ) + 1)) from
    by rw [hjj]]
  rw [sbeBody_at_top N b _ ((j - 1).toNat) (by omega), hjj]
  rw [setBoundsEdges_partial_preserve N b x _ (fun i hi1 hi2 =>
    ⟨IX_ne_of N (by omega), IX_ne_of N (by omega), IX_ne_of N (by omega),
     IX_ne_of N (by omega)⟩)]

/-- Bottom-left corner ghost cell equals the average of its two adjacent
edge-ghost neighbours, stated on the final field. -/
theorem setBounds_corner00 (N b : ℕ) (x : Grid) (hN : 1 ≤ (N : ℤ)) :
    setBounds N b x (IX N 0 0) =
      (1 / 2) * (setBounds N b x (IX N 1 0) + setBounds N b x (IX N 0 1)) := by
  have eL : setBounds N b x (IX N 0 0) =
      (1 / 2) * (setBoundsEdges N b x (IX N 1 0) + setBoundsEdges N b x (IX N 0 1)) := by
    unfold setBounds
    rw [upd_ne _ _ _ (IX_ne_of N (by omega)), upd_ne _ _ _ (IX_ne_of N (by omega)),
        upd_ne _ _ _ (IX_ne_of N (by omega)), upd_same]
  have e1 : setBounds N b x (IX N 1 0) = setBoundsEdges N b x (IX N 1 0) := by
    unfold setBounds
    rw [upd_ne _ _ _ (IX_ne_of N (by omega)), upd_ne _ _ _ (IX_ne_of N (by omega)),
        upd_ne _ _ _ (IX_ne_of N (by omega)), upd_ne _ _ _ (IX_ne_of N (by omega))]
  have e2 : setBounds N b x (IX N 0 1) = setBoundsEdges N b x (IX N 0 1) := by
    unfold setBounds
    rw [upd_ne _ _ _ (IX_ne_of N (by omega)), upd_ne _ _ _ (IX_ne_of N (by omega)),
        upd_ne _ _ _ (IX_ne_of N (by omega)), upd_ne _ _ _ (IX_ne_of N (by omega))]
  rw [eL, e1, e2]

/-- Top-left corner ghost cell equals the average of its two adjacent
edge-ghost neighbours, stated on the final field. -/
theorem setBounds_corner0T (N b : ℕ) (x : Grid) (hN : 1 ≤ (N : ℤ)) :
    setBounds N b x (IX N 0 ((N : ℤ) + 1)) =
      (1 / 2) * (setBounds N b x (IX N 1 ((N : ℤ) + 1)) +
        setBounds N b x (IX N 0 (N : ℤ))) := by
  have eL : setBounds N b x (IX N 0 ((N : ℤ) + 1)) =
      (1 / 2) * (setBoundsEdges N b x (IX N 1 ((N : ℤ) + 1)) +
        setBoundsEdges N b x (IX N 0 (N : ℤ))) := by
    unfold setBounds
    rw [upd_ne _ _ _ (IX_ne_of N (by omega)), upd_ne _ _ _ (IX_ne_of N (by omega)),
        upd_same, upd_ne _ _ _ (IX_ne_of N (by omega)),
        upd_ne _ _ _ (IX_ne_of N (by omega))]
  have e1 : setBounds N b x (IX N 1 ((N : ℤ) + 1)) =
      setBoundsEdges N b x (IX N 1 ((N : ℤ) + 1)) := by
    unfold setBounds
    rw [upd_ne _ _ _ (IX_ne_of N (by omega)), upd_ne _ _ _ (IX_ne_of N (by omega)),
        upd_ne _ _ _ (IX_ne_of N (by omega)), upd_ne _ _ _ (IX_ne_of N (by omega))]
  have e2 : setBounds N b x (IX N 0 (N : ℤ)) = setBoundsEdges N b x (IX N 0 (N : ℤ)) := by
    unfold setBounds
    rw [upd_ne _ _ _ (IX_ne_of N (by omega)), upd_ne _ _ _ (IX_ne_of N (by omega)),
        upd_ne _ _ _ (IX_ne_of N (by omega)), upd_ne _ _ _ (IX_ne_of N (by omega))]
  rw [eL, e1, e2]

/-- Bottom-right corner ghost cell equals the average of its two adjacent
edge-ghost neighbours, stated on the final field. -/
theorem setBounds_cornerT0 (N b : ℕ) (x : Grid) (hN : 1 ≤ (N : ℤ)) :
    setBounds N b x (IX N ((N : ℤ) + 1) 0) =
      (1 / 2) * (setBounds N b x (IX N (N : ℤ) 0) +
        setBounds N b x (IX N ((N : ℤ) + 1) 1)) := by
  have eL : setBounds N b x (IX N ((N : ℤ) + 1) 0) =
      (1 / 2) * (setBoundsEdges N b x (IX N (N : ℤ) 0) +
        setBoundsEdges N b x (IX N ((N : ℤ) + 1) 1)) := by
    unfold setBounds
    rw [upd_ne _ _ _ (IX_ne_of N (by omega)), upd_same,
        upd_ne _ _ _ (IX_ne_of N (by omega)), upd_ne _ _ _ (IX_ne_of N (by omega)),
        upd_ne _ _ _ (IX_ne_of N (by omega)), upd_ne _ _ _ (IX_ne_of N (by omega))]
  have e1 : setBounds N b x (IX N (N : ℤ) 0) = setBoundsEdges N b x (IX N (N : ℤ) 0) := by
    unfold setBounds
    rw [upd_ne _ _ _ (IX_ne_of N (by omega)), upd_ne _ _ _ (IX_ne_of N (by omega)),
        upd_ne _ _ _ (IX_ne_of N (by omega)), upd_ne _ _ _ (IX_ne_of N (by omega))]
  have e2 : setBounds N b x (IX N ((N : ℤ) + 1) 1) =
      setBoundsEdges N b x (IX N ((N : ℤ) + 1) 1) := by
    unfold setBounds
    rw [upd_ne _ _ _ (IX_ne_of N (by omega)), upd_ne _ _ _ (IX_ne_of N (by omega)),
        upd_ne _ _ _ (IX_ne_of N (by omega)), upd_ne _ _ _ (IX_ne_of N (by omega))]
  rw [eL, e1, e2]

/-- Top-right corner ghost cell equals the average of its two adjacent
edge-ghost neighbours, stated on the final field. -/
theorem setBounds_cornerTT (N b : ℕ) (x : Grid) (hN : 1 ≤ (N : ℤ)) :
    setBounds N b x (IX N ((N : ℤ) + 1) ((N : ℤ) + 1)) =
      (1 / 2) * (setBounds N b x (IX N (N : ℤ) ((N : ℤ) + 1)) +
        setBounds N b x (IX N ((N : ℤ) + 1) (N : ℤ))) := by
  have eL : setBounds N b x (IX N ((N : ℤ) + 1) ((N : ℤ) + 1)) =
      (1 / 2) * (setBoundsEdges N b x (IX N (N : ℤ) ((N : ℤ) + 1)) +
        setBoundsEdges N b x (IX N ((N : ℤ) + 1) (N : ℤ))) := by
    unfold setBounds
    rw [upd_same, upd_ne _ _ _ (IX_ne_of N (by omega)),
        upd_ne _ _ _ (IX_ne_of N (by omega)), upd_ne _ _ _ (IX_ne_of N (by omega)),
        upd_ne _ _ _ (IX_ne_of N (by omega)), upd_ne _ _ _ (IX_ne_of N (by omega)),
        upd_ne _ _ _ (IX_ne_of N (by omega))]
  have e1 : setBounds N b x (IX N (N : ℤ) ((N : ℤ) + 1)) =
      setBoundsEdges N b x (IX N (N : ℤ) ((N : ℤ) + 1)) := by
    unfold setBounds
    rw [upd_ne _ _ _ (IX_ne_of N (by omega)), upd_ne _ _ _ (IX_ne_of N (by omega)),
        upd_ne _ _ _ (IX_ne_of N (by omega)), upd_ne _ _ _ (IX_ne_of N (by omega))]
  have e2 : setBounds N b x (IX N ((N : ℤ) + 1) (N : ℤ)) =
      setBoundsEdges N b x (IX N ((N : ℤ) + 1) (N : ℤ)) := by
    unfold setBounds
    rw [upd_ne _ _ _ (IX_ne_of N (by omega)), upd_ne _ _ _ (IX_ne_of N (by omega)),
        upd_ne _ _ _ (IX_ne_of N (by omega)), upd_ne _ _ _ (IX_ne_of N (by omega))]
  rw [eL, e1, e2]

/-- C3: after applying the boundary rule with tag `b = 1`, the left and right
ghost columns hold the negation of the adjacent interior value; with `b = 0`
every ghost edge copies (does not negate) the adjacent interior value; and in
every case each of the four corner ghost cells equals the average of its two
adjacent edge-ghost neighbours. -/
theorem c3_boundary_mirroring (N b : ℕ) (x : Grid) (hN : 1 ≤ N) :
    (b = 1 → ∀ j : ℤ, 1 ≤ j → j ≤ (N : ℤ) →
      setBounds N b x (IX N 0 j) = -setBounds N b x (IX N 1 j) ∧
      setBounds N b x (IX N ((N : ℤ) + 1) j) = -setBounds N b x (IX N (N : ℤ) j)) ∧
    (b = 0 → ∀ j : ℤ, 1 ≤ j → j ≤ (N : ℤ) →
      setBounds N b x (IX N 0 j) = setBounds N b x (IX N 1 j) ∧
      setBounds N b x (IX N ((N : ℤ) + 1) j) = setBounds N b x (IX N (N : ℤ) j) ∧
      setBounds N b x (IX N j 0) = setBounds N b x (IX N j 1) ∧
      setBounds N b x (IX N j ((N : ℤ) + 1)) = setBounds N b x (IX N j (N : ℤ))) ∧
    setBounds N b x (IX N 0 0) =
      (1 / 2) * (setBounds N b x (IX N 1 0) + setBounds N b x (IX N 0 1)) ∧
    setBounds N b x (IX N 0 ((N : ℤ) + 1)) =
      (1 / 2) * (setBounds N b x (IX N 1 ((N : ℤ) + 1)) +
        setBounds N b x (IX N 0 (N : ℤ))) ∧
    setBounds N b x (IX N ((N : ℤ) + 1) 0) =
      (1 / 2) * (setBounds N b x (IX N (N : ℤ) 0) +
        setBounds N b x (IX N ((N : ℤ) + 1) 1)) ∧
    setBounds N b x (IX N ((N : ℤ) + 1) ((N : ℤ) + 1)) =
      (1 / 2) * (setBounds N b x (IX N (N : ℤ) ((N : ℤ) + 1)) +
        setBounds N b x (IX N ((N : ℤ) + 1) (N : ℤ))) := by
  have hNz : 1 ≤ (N : ℤ) := by omega
  refine ⟨?_, ?_, setBounds_corner00 N b x hNz, setBounds_corner0T N b x hNz,
    setBounds_cornerT0 N b x hNz, setBounds_cornerTT N b x hNz⟩
  · intro hb j hj1 hj2
    subst hb
    constructor
    · rw [setBounds_left N 1 x hj1 hj2, if_pos rfl,
        setBounds_interior N 1 x (by omega) (by omega) hj1 hj2]
    · rw [setBounds_right N 1 x hj1 hj2, if_pos rfl,
        setBounds_interior N 1 x (by omega) (by omega) hj1 hj2]
  · intro hb j hj1 hj2
    subst hb
    refine ⟨?_, ?_, ?_, ?_⟩
    · rw [setBounds_left N 0 x hj1 hj2, if_neg (by decide),
        setBounds_interior N 0 x (by omega) (by omega) hj1 hj2]
    · rw [setBounds_right N 0 x hj1 hj2, if_neg (by decide),
        setBounds_interior N 0 x (by omega) (by omega) hj1 hj2]
    · rw [setBounds_bottom N 0 x hj1 hj2, if_neg (by decide),
        setBounds_interior N 0 x hj1 hj2 (by omega) (by omega)]
    · rw [setBounds_top N 0 x hj1 hj2, if_neg (by decide),
        setBounds_interior N 0 x hj1 hj2 (by omega) (by omega)]

/-- Closed witness for `c3_boundary_mirroring` at `N = 2`, `b = 1`. -/
theorem c3_boundary_mirroring_witness :
    (1 : ℕ) ≤ 2 ∧
    (setBounds 2 1 zg (IX 2 0 1) = -setBounds 2 1 zg (IX 2 1 1) ∧
      setBounds 2 1 zg (IX 2 ((2 : ℤ) + 1) 1) = -setBounds 2 1 zg (IX 2 (2 : ℤ) 1)) ∧
    setBounds 2 1 zg (IX 2 0 0) =
      (1 / 2) * (setBounds 2 1 zg (IX 2 1 0) + setBounds 2 1 zg (IX 2 0 1)) :=
  ⟨by decide,
   (c3_boundary_mirroring 2 1 zg (by decide)).1 rfl 1 (by decide) (by decide),
   (c3_boundary_mirroring 2 1 zg (by decide)).2.2.1⟩

/-- One sweep store leaves other indices unchanged. -/
theorem lsBody_preserve (N : ℕ) (a c : ℚ) (x0 t : Grid) (p : ℤ × ℤ) {idx : ℤ}
    (h : idx ≠ IX N p.1 p.2) : lsBody N a c x0 t p idx = t idx := by
  unfold lsBody
  exact upd_ne _ _ _ h

/-- A Gauss-Seidel sweep leaves every index outside the interior write set
unchanged (in particular the whole ghost ring). -/
theorem lsSweep_preserve (N : ℕ) (a c : ℚ) (x0 x : Grid) {idx : ℤ}
    (h : ∀ p : ℤ × ℤ, 1 ≤ p.1 → p.1 ≤ (N : ℤ) → 1 ≤ p.2 → p.2 ≤ (N : ℤ) →
      idx ≠ IX N p.1 p.2) :
    lsSweep N a c x0 x idx = x idx :=
  foldl_obs_eq (lsBody N a c x0) (fun (f : Grid) => f idx) (cellList N 1) x
    (fun t q hq => by
      obtain ⟨h1, h2, h3, h4⟩ := mem_cellList.mp hq
      exact lsBody_preserve N a c x0 t q (h q h1 (by omega) h3 (by omega)))

/-- Gauss-Seidel recurrence satisfied by one `lsSweep`: each interior cell's
new value is computed from `x0`, the *already updated* left and lower
neighbours (values of the sweep result itself), and the *not yet updated*
right and upper neighbours (values of the pre-sweep field). -/
theorem lsSweep_interior (N : ℕ) (a c : ℚ) (x0 x : Grid) {i j : ℤ}
    (hi1 : 1 ≤ i) (hi2 : i ≤ (N : ℤ)) (hj1 : 1 ≤ j) (hj2 : j ≤ (N : ℤ)) :
    lsSweep N a c x0 x (IX N i j) =
      (x0 (IX N i j) +
        a * (lsSweep N a c x0 x (IX N (i - 1) j) + x (IX N (i + 1) j) +
             lsSweep N a c x0 x (IX N i (j - 1)) + x (IX N i (j + 1)))) / c := by
  have hp : ((i, j) : ℤ × ℤ) ∈ cellList N 1 := mem_cellList.mpr
    ⟨by dsimp only; omega, by dsimp only; omega, by dsimp only; omega, by dsimp only; omega⟩
  obtain ⟨A, B, hLAB, hA, hB⟩ := cellList_split hp
  set accA : Grid := List.foldl (lsBody N a c x0) x A with haccA
  have hfinal : lsSweep N a c x0 x =
      List.foldl (lsBody N a c x0) (lsBody N a c x0 accA (i, j)) B := by
    unfold lsSweep
    rw [hLAB, List.foldl_append, List.foldl_cons]
  have hAq : ∀ t (q : ℤ × ℤ), q ∈ A → ∀ (idx : ℤ),
      (∀ qc : ℤ × ℤ, qc ∈ cellList N 1 →
        (qc.2 < j ∨ (qc.2 = j ∧ qc.1 < i)) → idx ≠ IX N qc.1 qc.2) →
      lsBody N a c x0 t q idx = t idx := fun t q hq _ h =>
    lsBody_preserve N a c x0 t q (h q (hA q hq).1 (hA q hq).2)
  have hBq : ∀ t (q : ℤ × ℤ), q ∈ B → ∀ (idx : ℤ),
      (∀ qc : ℤ × ℤ, qc ∈ cellList N 1 →
        (j < qc.2 ∨ (qc.2 = j ∧ i < qc.1)) → idx ≠ IX N qc.1 qc.2) →
      lsBody N a c x0 t q idx = t idx := fun t q hq _ h =>
    lsBody_preserve N a c x0 t q (h q (hB q hq).1 (hB q hq).2)
  have hFtarget : lsSweep N a c x0 x (IX N i j) =
      lsBody N a c x0 accA (i, j) (IX N i j) := by
    rw [hfinal]
    exact foldl_obs_eq (lsBody N a c x0) (fun (f : Grid) => f (IX N i j)) B _
      (fun t q hq => hBq t q hq _ (fun qc hqc hord => by
        obtain ⟨q1, q2, q3, q4⟩ := mem_cellList.mp hqc
        exact IX_ne_of N (by omega)))
  have hFleft : lsSweep N a c x0 x (IX N (i - 1) j) = accA (IX N (i - 1) j) := by
    rw [hfinal]
    rw [foldl_obs_eq (lsBody N a c x0) (fun (f : Grid) => f (IX N (i - 1) j)) B _
      (fun t q hq => hBq t q hq _ (fun qc hqc hord => by
        obtain ⟨q1, q2, q3, q4⟩ := mem_cellList.mp hqc
        exact IX_ne_of N (by omega)))]
    exact lsBody_preserve N a c x0 accA (i, j) (IX_ne_of N (by omega))
  have hFdown : lsSweep N a c x0 x (IX N i (j - 1)) = accA (IX N i (j - 1)) := by
    rw [hfinal]
    rw [foldl_obs_eq (lsBody N a c x0) (fun (f : Grid) => f (IX N i (j - 1))) B _
      (fun t q hq => hBq t q hq _ (fun qc hqc hord => by
        obtain ⟨q1, q2, q3, q4⟩ := mem_cellList.mp hqc
        exact IX_ne_of N (by omega)))]
    exact lsBody_preserve N a c x0 accA (i, j) (IX_ne_of N (by omega))
  have hAright : accA (IX N (i + 1) j) = x (IX N (i + 1) j) := by
    rw [haccA]
    exact foldl_obs_eq (lsBody N a c x0) (fun (f : Grid) => f (IX N (i + 1) j)) A x
      (fun t q hq => hAq t q hq _ (fun qc hqc hord => by
        obtain ⟨q1, q2, q3, q4⟩ := mem_cellList.mp hqc
        exact IX_ne_of N (by omega)))
  have hAup : accA (IX N i (j + 1)) = x (IX N i (j + 1)) := by
    rw [haccA]
    exact foldl_obs_eq (lsBody N a c x0) (fun (f : Grid) => f (IX N i (j + 1))) A x
      (fun t q hq => hAq t q hq _ (fun qc hqc hord => by
        obtain ⟨q1, q2, q3, q4⟩ := mem_cellList.mp hqc
        exact IX_ne_of N (by omega)))
  rw [hFtarget, hFleft, hFdown]
  unfold lsBody
  rw [upd_same]
  dsimp only
  rw [hAright, hAup]

/-- C1: `step(dt)` performs exactly the fixed eight-phase sequence described
by the spec (diffuse both velocity components into the `Prev` buffers with
viscosity, project `Prev`, advect both components from `Prev` into the
current buffers, vorticity confinement on the current buffers, project the
current buffers with `Prev` as scratch, diffuse dye into `densityPrev`,
advect dye by the final velocity, multiply every dye cell by the dissipation
factor), with the vorticity phase a no-op exactly when `curlStrength ≤ 0`;
as a pure function of `(fields, config, dt)` there is no other branching. -/
theorem c1_step_sequence (hypotFn : ℚ → ℚ → ℚ) (s : FluidState) (dt : ℚ) :
    step hypotFn s dt = stepSpec hypotFn s dt ∧
    (s.config.curlStrength ≤ 0 →
      ∀ (vx vy cu : Grid) (dtv : ℚ),
        applyVorticityConfinement s.size s.config.curlStrength hypotFn vx vy cu dtv =
          (vx, vy, cu)) :=
  ⟨rfl, fun hε vx vy cu dtv => by
    unfold applyVorticityConfinement
    rw [if_pos hε]⟩

/-- Closed witness for `c1_step_sequence`. -/
theorem c1_step_sequence_witness :
    step demoHypot demoState 1 = stepSpec demoHypot demoState 1 ∧
    applyVorticityConfinement demoState.size demoState.config.curlStrength demoHypot
      zg zg zg 1 = (zg, zg, zg) :=
  ⟨(c1_step_sequence demoHypot demoState 1).1,
   (c1_step_sequence demoHypot demoState 1).2 (by decide) zg zg zg 1⟩

/-- C6: diffusion is exactly `linearSolve` with coefficient
`a = dt * rate * N²` and divisor `1 + 4a`; the relaxation loop performs `K`
full sweeps, reapplying the boundary rule after every sweep (not only at the
end); and each sweep obeys the in-place Gauss-Seidel recurrence, reading the
already-updated left/lower neighbours and the pre-sweep right/upper
neighbours. -/
theorem c6_diffusion_relaxation (N K b : ℕ) (x x0 : Grid) (rate dt a c : ℚ) :
    diffuse N K b x x0 rate dt =
      linearSolve N K b x x0 (dt * rate * (N : ℚ) * (N : ℚ))
        (1 + 4 * (dt * rate * (N : ℚ) * (N : ℚ))) ∧
    linearSolve N 0 b x x0 a c = x ∧
    linearSolve N (K + 1) b x x0 a c =
      setBounds N b (lsSweep N a c x0 (linearSolve N K b x x0 a c)) ∧
    (∀ i j : ℤ, 1 ≤ i → i ≤ (N : ℤ) → 1 ≤ j → j ≤ (N : ℤ) →
      lsSweep N a c x0 x (IX N i j) =
        (x0 (IX N i j) +
          a * (lsSweep N a c x0 x (IX N (i - 1) j) + x (IX N (i + 1) j) +
               lsSweep N a c x0 x (IX N i (j - 1)) + x (IX N i (j + 1)))) / c) := by
  refine ⟨rfl, rfl, ?_, fun i j h1 h2 h3 h4 => lsSweep_interior N a c x0 x h1 h2 h3 h4⟩
  unfold linearSolve
  exact Function.iterate_succ_apply' _ K x

/-- Closed witness for `c6_diffusion_relaxation` at `N = 2`. -/
theorem c6_diffusion_relaxation_witness :
    diffuse 2 1 0 zg zg 1 1 =
      linearSolve 2 1 0 zg zg (1 * 1 * ((2 : ℕ) : ℚ) * ((2 : ℕ) : ℚ))
        (1 + 4 * (1 * 1 * ((2 : ℕ) : ℚ) * ((2 : ℕ) : ℚ))) ∧
    linearSolve 2 (0 + 1) 0 zg zg 1 4 =
      setBounds 2 0 (lsSweep 2 1 4 zg (linearSolve 2 0 0 zg zg 1 4)) ∧
    lsSweep 2 1 4 zg zg (IX 2 1 1) =
      (zg (IX 2 1 1) +
        1 * (lsSweep 2 1 4 zg zg (IX 2 (1 - 1) 1) + zg (IX 2 (1 + 1) 1) +
             lsSweep 2 1 4 zg zg (IX 2 1 (1 - 1)) + zg (IX 2 1 (1 + 1)))) / 4 :=
  ⟨(c6_diffusion_relaxation 2 1 0 zg zg 1 1 1 4).1,
   (c6_diffusion_relaxation 2 0 0 zg zg 1 1 1 4).2.2.1,
   (c6_diffusion_relaxation 2 1 0 zg zg 1 1 1 4).2.2.2 1 1
     (by decide) (by decide) (by decide) (by decide)⟩

/-- C9: the solver is deterministic with no hidden state: any two states
agreeing on configuration, size, and all seven fields produce identical
results from `step`, `getDyeField`, `addImpulse`, and `addVelocityImpulse`
given identical arguments. -/
theorem c9_determinism (hypotFn : ℚ → ℚ → ℚ) (s1 s2 : FluidState)
    (hcfg : s1.config = s2.config) (hsz : s1.size = s2.size)
    (hvx : ∀ idx, s1.velocityX idx = s2.velocityX idx)
    (hvy : ∀ idx, s1.velocityY idx = s2.velocityY idx)
    (hvxp : ∀ idx, s1.velocityXPrev idx = s2.velocityXPrev idx)
    (hvyp : ∀ idx, s1.velocityYPrev idx = s2.velocityYPrev idx)
    (hd : ∀ idx, s1.density idx = s2.density idx)
    (hdp : ∀ idx, s1.densityPrev idx = s2.densityPrev idx)
    (hcu : ∀ idx, s1.curl idx = s2.curl idx) :
    (∀ dt, step hypotFn s1 dt = step hypotFn s2 dt) ∧
    getDyeField s1 = getDyeField s2 ∧
    (∀ (sqrtFn : ℚ → ℚ) (x y radius strength audio : ℚ),
      addImpulse sqrtFn s1 x y radius strength audio =
        addImpulse sqrtFn s2 x y radius strength audio) ∧
    (∀ x y vx vy f : ℚ,
      addVelocityImpulse s1 x y vx vy f = addVelocityImpulse s2 x y vx vy f) := by
  have hs : s1 = s2 := by
    obtain ⟨cf1, n1, a1, b1, p1, q1, d1, e1, u1⟩ := s1
    obtain ⟨cf2, n2, a2, b2, p2, q2, d2, e2, u2⟩ := s2
    dsimp only at hcfg hsz hvx hvy hvxp hvyp hd hdp hcu
    subst hcfg
    subst hsz
    rw [funext hvx, funext hvy, funext hvxp, funext hvyp, funext hd, funext hdp,
      funext hcu]
  subst hs
  exact ⟨fun _ => rfl, rfl, fun _ _ _ _ _ _ => rfl, fun _ _ _ _ _ => rfl⟩

/-- Every grid agrees with itself pointwise. -/
theorem gridAgree (g : Grid) : ∀ k : ℤ, g k = g k := fun _ => rfl

/-- Closed witness for `c9_determinism`. -/
theorem c9_determinism_witness :
    step demoHypot demoState 1 = step demoHypot demoState 1 ∧
    getDyeField demoState = getDyeField demoState :=
  ⟨(c9_determinism demoHypot demoState demoState rfl rfl (gridAgree _) (gridAgree _)
      (gridAgree _) (gridAgree _) (gridAgree _) (gridAgree _) (gridAgree _)).1 1,
   (c9_determinism demoHypot demoState demoState rfl rfl (gridAgree _) (gridAgree _)
      (gridAgree _) (gridAgree _) (gridAgree _) (gridAgree _) (gridAgree _)).2.1⟩

/-- C5: `updateConfig` with a different resolution reallocates all seven
fields zeroed at the new size and adopts the new configuration (so a
subsequent `getDyeField` has the new resolution as its size); with the same
resolution it adopts the new configuration and leaves every field
untouched. -/
theorem c5_updateConfig (s : FluidState) (cfg : SimulationParameters) :
    (cfg.resolution ≠ s.config.resolution →
      updateConfig s cfg =
        { config := cfg, size := cfg.resolution,
          velocityX := fun _ => 0, velocityY := fun _ => 0,
          velocityXPrev := fun _ => 0, velocityYPrev := fun _ => 0,
          density := fun _ => 0, densityPrev := fun _ => 0, curl := fun _ => 0 } ∧
      (getDyeField (updateConfig s cfg)).size = cfg.resolution ∧
      (∀ idx : ℤ,
        (updateConfig s cfg).velocityX idx = 0 ∧
        (updateConfig s cfg).velocityY idx = 0 ∧
        (updateConfig s cfg).velocityXPrev idx = 0 ∧
        (updateConfig s cfg).velocityYPrev idx = 0 ∧
        (updateConfig s cfg).density idx = 0 ∧
        (updateConfig s cfg).densityPrev idx = 0 ∧
        (updateConfig s cfg).curl idx = 0)) ∧
    (cfg.resolution = s.config.resolution →
      updateConfig s cfg = { s with config := cfg }) := by
  constructor
  · intro hne
    have he : updateConfig s cfg =
        { config := cfg, size := cfg.resolution,
          velocityX := fun _ => 0, velocityY := fun _ => 0,
          velocityXPrev := fun _ => 0, velocityYPrev := fun _ => 0,
          density := fun _ => 0, densityPrev := fun _ => 0, curl := fun _ => 0 } := by
      unfold updateConfig
      rw [if_pos hne]
      rfl
    refine ⟨he, by rw [he]; rfl,
      fun idx => by rw [he]; exact ⟨rfl, rfl, rfl, rfl, rfl, rfl, rfl⟩⟩
  · intro heq
    unfold updateConfig
    rw [if_neg (not_not_intro heq)]

/-- Closed witness for `c5_updateConfig`: resizing from resolution 4 to 2
zeroes everything; re-adopting the same resolution leaves fields alone. -/
theorem c5_updateConfig_witness :
    (updateConfig demoState demoCfg8 =
      { config := demoCfg8, size := demoCfg8.resolution,
        velocityX := fun _ => 0, velocityY := fun _ => 0,
        velocityXPrev := fun _ => 0, velocityYPrev := fun _ => 0,
        density := fun _ => 0, densityPrev := fun _ => 0, curl := fun _ => 0 } ∧
      (getDyeField (updateConfig demoState demoCfg8)).size = demoCfg8.resolution ∧
      (updateConfig demoState demoCfg8).density 5 = 0) ∧
    updateConfig demoState demoCfg = { demoState with config := demoCfg } :=
  ⟨⟨((c5_updateConfig demoState demoCfg8).1 (by decide)).1,
    ((c5_updateConfig demoState demoCfg8).1 (by decide)).2.1,
    (((c5_updateConfig demoState demoCfg8).1 (by decide)).2.2 5).2.2.2.2.1⟩,
   (c5_updateConfig demoState demoCfg).2 (by decide)⟩

/-- One impulse-loop iteration leaves `idx` unchanged provided `idx` differs
from the write target whenever that target is inside the interior. -/
theorem impBody_preserve (sqrtFn : ℚ → ℚ) (N : ℕ) (cx cy r : ℤ) (imp : ℚ)
    (t : Grid) (off : ℤ × ℤ) {idx : ℤ}
    (h : 1 ≤ cx + off.1 → cx + off.1 ≤ (N : ℤ) → 1 ≤ cy + off.2 →
      cy + off.2 ≤ (N : ℤ) → idx ≠ IX N (cx + off.1) (cy + off.2)) :
    impBody sqrtFn N cx cy r imp t off idx = t idx := by
  unfold impBody
  dsimp only
  by_cases h1 : cx + off.1 < 1 ∨ cx + off.1 > (N : ℤ) ∨ cy + off.2 < 1 ∨
      cy + off.2 > (N : ℤ)
  · rw [if_pos h1]
  · rw [if_neg h1]
    by_cases h2 : 1 - sqrtFn ((off.1 : ℚ) * (off.1 : ℚ) + (off.2 : ℚ) * (off.2 : ℚ)) /
        (r : ℚ) ≤ 0
    · rw [if_pos h2]
    · rw [if_neg h2]
      exact upd_ne _ _ _ (h (by omega) (by omega) (by omega) (by omega))

/-- One impulse-loop iteration skips entirely when its target is outside the
interior or its falloff weight is not positive. -/
theorem impBody_skip (sqrtFn : ℚ → ℚ) (N : ℕ) (cx cy r : ℤ) (imp : ℚ)
    (t : Grid) (off : ℤ × ℤ)
    (h : (cx + off.1 < 1 ∨ cx + off.1 > (N : ℤ) ∨ cy + off.2 < 1 ∨
      cy + off.2 > (N : ℤ)) ∨
      1 - sqrtFn ((off.1 : ℚ) * (off.1 : ℚ) + (off.2 : ℚ) * (off.2 : ℚ)) / (r : ℚ) ≤ 0) :
    impBody sqrtFn N cx cy r imp t off = t := by
  unfold impBody
  dsimp only
  rcases h with h1 | h2
  · rw [if_pos h1]
  · by_cases h1 : cx + off.1 < 1 ∨ cx + off.1 > (N : ℤ) ∨ cy + off.2 < 1 ∨
        cy + off.2 > (N : ℤ)
    · rw [if_pos h1]
    · rw [if_neg h1, if_pos h2]

/-- `addImpulse` leaves `density` unchanged at every index that is not an
interior cell index. -/
theorem addImpulse_density_preserve (sqrtFn : ℚ → ℚ) (s : FluidState)
    (x y radius strength audio : ℚ) {idx : ℤ}
    (h : ∀ px py : ℤ, 1 ≤ px → px ≤ (s.size : ℤ) → 1 ≤ py → py ≤ (s.size : ℤ) →
      idx ≠ IX s.size px py) :
    (addImpulse sqrtFn s x y radius strength audio).density idx = s.density idx := by
  unfold addImpulse
  exact foldl_obs_eq _ (fun (f : Grid) => f idx) _ s.density
    (fun t off _ => impBody_preserve sqrtFn s.size _ _ _ _ t off
      (fun h1 h2 h3 h4 => h _ _ h1 h2 h3 h4))

/-- Exact dye amount deposited by `addImpulse` at a qualifying cell: the cell
at offset `(i, j)` from the mapped centre, inside the interior and with
positive falloff weight, gains `strength·(1+audio)·weight·0.01` where
`weight = 1 − sqrtFn(i²+j²)/r`, and is written exactly once. -/
theorem addImpulse_density_hit (sqrtFn : ℚ → ℚ) (s : FluidState)
    (x y radius strength audio : ℚ) {i j : ℤ}
    (hi1 : -(max ⌊radius * (s.size : ℚ)⌋ 1) ≤ i) (hi2 : i ≤ max ⌊radius * (s.size : ℚ)⌋ 1)
    (hj1 : -(max ⌊radius * (s.size : ℚ)⌋ 1) ≤ j) (hj2 : j ≤ max ⌊radius * (s.size : ℚ)⌋ 1)
    (hx1 : 1 ≤ ⌊x * (s.size : ℚ)⌋ + i) (hx2 : ⌊x * (s.size : ℚ)⌋ + i ≤ (s.size : ℤ))
    (hy1 : 1 ≤ ⌊y * (s.size : ℚ)⌋ + j) (hy2 : ⌊y * (s.size : ℚ)⌋ + j ≤ (s.size : ℤ))
    (hw : 0 < 1 - sqrtFn ((i : ℚ) * (i : ℚ) + (j : ℚ) * (j : ℚ)) /
      ((max ⌊radius * (s.size : ℚ)⌋ 1 : ℤ) : ℚ)) :
    (addImpulse sqrtFn s x y radius strength audio).density
        (IX s.size (⌊x * (s.size : ℚ)⌋ + i) (⌊y * (s.size : ℚ)⌋ + j)) =
      s.density (IX s.size (⌊x * (s.size : ℚ)⌋ + i) (⌊y * (s.size : ℚ)⌋ + j)) +
        strength * (1 + audio) *
          (1 - sqrtFn ((i : ℚ) * (i : ℚ) + (j : ℚ) * (j : ℚ)) /
            ((max ⌊radius * (s.size : ℚ)⌋ 1 : ℤ) : ℚ)) * (1 / 100) := by
  set N := s.size with hNdef
  set r : ℤ := max ⌊radius * (N : ℚ)⌋ 1 with hrdef
  set cx : ℤ := ⌊x * (N : ℚ)⌋ with hcxdef
  set cy : ℤ := ⌊y * (N : ℚ)⌋ with hcydef
  have hr1 : 1 ≤ r := le_max_right _ _
  have hp : ((i, j) : ℤ × ℤ) ∈ cellList (2 * r.toNat + 1) (-r) := mem_cellList.mpr
    ⟨by dsimp only; omega, by dsimp only; omega, by dsimp only; omega, by dsimp only; omega⟩
  obtain ⟨A, B, hLAB, hA, hB⟩ := cellList_split hp
  set body := impBody sqrtFn N cx cy r (strength * (1 + audio)) with hbody
  set accA : Grid := List.foldl body s.density A with haccA
  set idx : ℤ := IX N (cx + i) (cy + j) with hidxdef
  have hres : (addImpulse sqrtFn s x y radius strength audio).density =
      List.foldl body s.density (cellList (2 * r.toNat + 1) (-r)) := rfl
  rw [hLAB, List.foldl_append, List.foldl_cons] at hres
  rw [hres]
  have hqne : ∀ (q : ℤ × ℤ), q ∈ cellList (2 * r.toNat + 1) (-r) → q ≠ (i, j) →
      1 ≤ cx + q.1 → cx + q.1 ≤ (N : ℤ) → 1 ≤ cy + q.2 → cy + q.2 ≤ (N : ℤ) →
      idx ≠ IX N (cx + q.1) (cy + q.2) := by
    intro q _ hqij hq1 hq2 hq3 hq4
    refine IX_ne_of N ⟨by omega, by omega, by omega, by omega, ?_⟩
    intro ⟨he1, he2⟩
    exact hqij (by
      obtain ⟨q1, q2⟩ := q
      dsimp only at he1 he2 ⊢
      rw [Prod.mk.injEq]
      omega)
  have hBpres : List.foldl body (body accA (i, j)) B idx = body accA (i, j) idx :=
    foldl_obs_eq body (fun (f : Grid) => f idx) B _
      (fun t q hq => impBody_preserve sqrtFn N cx cy r _ t q
        (fun h1 h2 h3 h4 => hqne q (hB q hq).1 (by
          intro he
          rcases (hB q hq).2 with hlt | ⟨he2, hlt⟩ <;> (rw [he] at hlt; omega)) h1 h2 h3 h4))
  have hApres : accA idx = s.density idx := by
    rw [haccA]
    exact foldl_obs_eq body (fun (f : Grid) => f idx) A s.density
      (fun t q hq => impBody_preserve sqrtFn N cx cy r _ t q
        (fun h1 h2 h3 h4 => hqne q (hA q hq).1 (by
          intro he
          rcases (hA q hq).2 with hlt | ⟨he2, hlt⟩ <;> (rw [he] at hlt; omega)) h1 h2 h3 h4))
  rw [hBpres, hbody]
  unfold impBody
  dsimp only
  rw [if_neg (by omega), if_neg (not_le.mpr hw), upd_same, hApres]

/-- A weight-skipped in-range cell keeps its dye value: even inside the
radius square, a non-positive falloff weight means no store to that cell (and
no other offset writes the same index). -/
theorem addImpulse_density_skip (sqrtFn : ℚ → ℚ) (s : FluidState)
    (x y radius strength audio : ℚ) {i j : ℤ}
    (hx1 : 1 ≤ ⌊x * (s.size : ℚ)⌋ + i) (hx2 : ⌊x * (s.size : ℚ)⌋ + i ≤ (s.size : ℤ))
    (hy1 : 1 ≤ ⌊y * (s.size : ℚ)⌋ + j) (hy2 : ⌊y * (s.size : ℚ)⌋ + j ≤ (s.size : ℤ))
    (hw : 1 - sqrtFn ((i : ℚ) * (i : ℚ) + (j : ℚ) * (j : ℚ)) /
      ((max ⌊radius * (s.size : ℚ)⌋ 1 : ℤ) : ℚ) ≤ 0) :
    (addImpulse sqrtFn s x y radius strength audio).density
        (IX s.size (⌊x * (s.size : ℚ)⌋ + i) (⌊y * (s.size : ℚ)⌋ + j)) =
      s.density (IX s.size (⌊x * (s.size : ℚ)⌋ + i) (⌊y * (s.size : ℚ)⌋ + j)) := by
  set N := s.size with hNdef
  set r : ℤ := max ⌊radius * (N : ℚ)⌋ 1 with hrdef
  set cx : ℤ := ⌊x * (N : ℚ)⌋ with hcxdef
  set cy : ℤ := ⌊y * (N : ℚ)⌋ with hcydef
  set body := impBody sqrtFn N cx cy r (strength * (1 + audio)) with hbody
  have hres : (addImpulse sqrtFn s x y radius strength audio).density =
      List.foldl body s.density (cellList (2 * r.toNat + 1) (-r)) := rfl
  rw [hres]
  exact foldl_obs_eq body (fun (f : Grid) => f (IX N (cx + i) (cy + j))) _ s.density
    (fun t q _ => by
      by_cases hq : q = (i, j)
      · subst hq
        exact congrFun (impBody_skip sqrtFn N cx cy r _ t (i, j) (Or.inr hw)) _
      · refine impBody_preserve sqrtFn N cx cy r _ t q (fun h1 h2 h3 h4 =>
          IX_ne_of N ⟨by omega, by omega, by omega, by omega, ?_⟩)
        intro ⟨he1, he2⟩
        exact hq (by
          obtain ⟨q1, q2⟩ := q
          dsimp only at he1 he2 ⊢
          rw [Prod.mk.injEq]
          omega))

/-- `addImpulse` touches only the `density` field. -/
theorem addImpulse_other_fields (sqrtFn : ℚ → ℚ) (s : FluidState)
    (x y radius strength audio : ℚ) :
    (addImpulse sqrtFn s x y radius strength audio).config = s.config ∧
    (addImpulse sqrtFn s x y radius strength audio).size = s.size ∧
    (addImpulse sqrtFn s x y radius strength audio).velocityX = s.velocityX ∧
    (addImpulse sqrtFn s x y radius strength audio).velocityY = s.velocityY ∧
    (addImpulse sqrtFn s x y radius strength audio).velocityXPrev = s.velocityXPrev ∧
    (addImpulse sqrtFn s x y radius strength audio).velocityYPrev = s.velocityYPrev ∧
    (addImpulse sqrtFn s x y radius strength audio).densityPrev = s.densityPrev ∧
    (addImpulse sqrtFn s x y radius strength audio).curl = s.curl :=
  ⟨rfl, rfl, rfl, rfl, rfl, rfl, rfl, rfl⟩

/-- C7: for `addImpulse`, the cell radius is `r = max(⌊radius·N⌋, 1)`; every
cell of the `[-r,r]²` square around the mapped centre `(⌊x·N⌋, ⌊y·N⌋)` that
lies in the interior and has positive falloff weight `1 − sqrtFn(i²+j²)/r`
gains exactly `strength·(1+audioFactor)·weight·0.01` dye; in-range cells with
non-positive weight and all non-interior indices are untouched; and no field
other than `density` is modified. -/
theorem c7_addImpulse_falloff (sqrtFn : ℚ → ℚ) (s : FluidState)
    (x y radius strength audio : ℚ) :
    ((addImpulse sqrtFn s x y radius strength audio).velocityX = s.velocityX ∧
     (addImpulse sqrtFn s x y radius strength audio).velocityY = s.velocityY ∧
     (addImpulse sqrtFn s x y radius strength audio).velocityXPrev = s.velocityXPrev ∧
     (addImpulse sqrtFn s x y radius strength audio).velocityYPrev = s.velocityYPrev ∧
     (addImpulse sqrtFn s x y radius strength audio).densityPrev = s.densityPrev ∧
     (addImpulse sqrtFn s x y radius strength audio).curl = s.curl ∧
     (addImpulse sqrtFn s x y radius strength audio).config = s.config ∧
     (addImpulse sqrtFn s x y radius strength audio).size = s.size) ∧
    (∀ i j : ℤ,
      -(max ⌊radius * (s.size : ℚ)⌋ 1) ≤ i → i ≤ max ⌊radius * (s.size : ℚ)⌋ 1 →
      -(max ⌊radius * (s.size : ℚ)⌋ 1) ≤ j → j ≤ max ⌊radius * (s.size : ℚ)⌋ 1 →
      1 ≤ ⌊x * (s.size : ℚ)⌋ + i → ⌊x * (s.size : ℚ)⌋ + i ≤ (s.size : ℤ) →
      1 ≤ ⌊y * (s.size : ℚ)⌋ + j → ⌊y * (s.size : ℚ)⌋ + j ≤ (s.size : ℤ) →
      0 < 1 - sqrtFn ((i : ℚ) * (i : ℚ) + (j : ℚ) * (j : ℚ)) /
        ((max ⌊radius * (s.size : ℚ)⌋ 1 : ℤ) : ℚ) →
      (addImpulse sqrtFn s x y radius strength audio).density
          (IX s.size (⌊x * (s.size : ℚ)⌋ + i) (⌊y * (s.size : ℚ)⌋ + j)) =
        s.density (IX s.size (⌊x * (s.size : ℚ)⌋ + i) (⌊y * (s.size : ℚ)⌋ + j)) +
          strength * (1 + audio) *
            (1 - sqrtFn ((i : ℚ) * (i : ℚ) + (j : ℚ) * (j : ℚ)) /
              ((max ⌊radius * (s.size : ℚ)⌋ 1 : ℤ) : ℚ)) * (1 / 100)) ∧
    (∀ i j : ℤ,
      1 ≤ ⌊x * (s.size : ℚ)⌋ + i → ⌊x * (s.size : ℚ)⌋ + i ≤ (s.size : ℤ) →
      1 ≤ ⌊y * (s.size : ℚ)⌋ + j → ⌊y * (s.size : ℚ)⌋ + j ≤ (s.size : ℤ) →
      1 - sqrtFn ((i : ℚ) * (i : ℚ) + (j : ℚ) * (j : ℚ)) /
        ((max ⌊radius * (s.size : ℚ)⌋ 1 : ℤ) : ℚ) ≤ 0 →
      (addImpulse sqrtFn s x y radius strength audio).density
          (IX s.size (⌊x * (s.size : ℚ)⌋ + i) (⌊y * (s.size : ℚ)⌋ + j)) =
        s.density (IX s.size (⌊x * (s.size : ℚ)⌋ + i) (⌊y * (s.size : ℚ)⌋ + j))) ∧
    (∀ idx : ℤ,
      (∀ px py : ℤ, 1 ≤ px → px ≤ (s.size : ℤ) → 1 ≤ py → py ≤ (s.size : ℤ) →
        idx ≠ IX s.size px py) →
      (addImpulse sqrtFn s x y radius strength audio).density idx = s.density idx) := by
  obtain ⟨h1, h2, h3, h4, h5, h6, h7, h8⟩ :=
    addImpulse_other_fields sqrtFn s x y radius strength audio
  refine ⟨⟨h3, h4, h5, h6, h7, h8, h1, h2⟩, ?_, ?_, ?_⟩
  · intro i j hi1 hi2 hj1 hj2 hx1 hx2 hy1 hy2 hw
    exact addImpulse_density_hit sqrtFn s x y radius strength audio
      hi1 hi2 hj1 hj2 hx1 hx2 hy1 hy2 hw
  · intro i j hx1 hx2 hy1 hy2 hw
    exact addImpulse_density_skip sqrtFn s x y radius strength audio hx1 hx2 hy1 hy2 hw
  · intro idx h
    exact addImpulse_density_preserve sqrtFn s x y radius strength audio h

/-- Concrete arithmetic facts about the demo state used by closed
witnesses. -/
theorem c7demoFacts :
    (-(max ⌊(1 : ℚ) * (demoState.size : ℚ)⌋ 1) ≤ (0 : ℤ)) ∧
    ((0 : ℤ) ≤ max ⌊(1 : ℚ) * (demoState.size : ℚ)⌋ 1) ∧
    (1 ≤ ⌊(1 / 2 : ℚ) * (demoState.size : ℚ)⌋ + (0 : ℤ)) ∧
    (⌊(1 / 2 : ℚ) * (demoState.size : ℚ)⌋ + (0 : ℤ) ≤ (demoState.size : ℤ)) ∧
    (0 < 1 - demoSqrt (((0 : ℤ) : ℚ) * ((0 : ℤ) : ℚ) + ((0 : ℤ) : ℚ) * ((0 : ℤ) : ℚ)) /
      ((max ⌊(1 : ℚ) * (demoState.size : ℚ)⌋ 1 : ℤ) : ℚ)) := by
  have hsz : demoState.size = 4 := rfl
  rw [hsz]
  norm_num [demoSqrt]

/-- Closed witness for `c7_addImpulse_falloff`: the centre cell of a dye
impulse at `(1/2, 1/2)` with radius 1 on the 4-grid receives exactly the
full-weight deposit, and velocity is untouched. -/
theorem c7_addImpulse_falloff_witness :
    (addImpulse demoSqrt demoState (1 / 2) (1 / 2) 1 100 0).velocityX =
      demoState.velocityX ∧
    (addImpulse demoSqrt demoState (1 / 2) (1 / 2) 1 100 0).density
        (IX demoState.size (⌊(1 / 2 : ℚ) * (demoState.size : ℚ)⌋ + 0)
          (⌊(1 / 2 : ℚ) * (demoState.size : ℚ)⌋ + 0)) =
      demoState.density
          (IX demoState.size (⌊(1 / 2 : ℚ) * (demoState.size : ℚ)⌋ + 0)
            (⌊(1 / 2 : ℚ) * (demoState.size : ℚ)⌋ + 0)) +
        100 * (1 + 0) *
          (1 - demoSqrt (((0 : ℤ) : ℚ) * ((0 : ℤ) : ℚ) + ((0 : ℤ) : ℚ) * ((0 : ℤ) : ℚ)) /
            ((max ⌊(1 : ℚ) * (demoState.size : ℚ)⌋ 1 : ℤ) : ℚ)) * (1 / 100) :=
  ⟨(c7_addImpulse_falloff demoSqrt demoState (1 / 2) (1 / 2) 1 100 0).1.1,
   (c7_addImpulse_falloff demoSqrt demoState (1 / 2) (1 / 2) 1 100 0).2.1 0 0
     c7demoFacts.1 c7demoFacts.2.1 c7demoFacts.1 c7demoFacts.2.1
     c7demoFacts.2.2.1 c7demoFacts.2.2.2.1 c7demoFacts.2.2.1 c7demoFacts.2.2.2.1
     c7demoFacts.2.2.2.2⟩

/-- `addVelocityImpulse` with an in-range mapped cell adds the scaled force
to exactly that cell of both velocity arrays. -/
theorem addVelocityImpulse_hit (s : FluidState) (x y vx vy f : ℚ)
    (h1 : 1 ≤ ⌊x * (s.size : ℚ)⌋) (h2 : ⌊x * (s.size : ℚ)⌋ ≤ (s.size : ℤ))
    (h3 : 1 ≤ ⌊y * (s.size : ℚ)⌋) (h4 : ⌊y * (s.size : ℚ)⌋ ≤ (s.size : ℤ)) :
    (addVelocityImpulse s x y vx vy f).velocityX
        (IX s.size ⌊x * (s.size : ℚ)⌋ ⌊y * (s.size : ℚ)⌋) =
      s.velocityX (IX s.size ⌊x * (s.size : ℚ)⌋ ⌊y * (s.size : ℚ)⌋) + vx / 1000 * f ∧
    (addVelocityImpulse s x y vx vy f).velocityY
        (IX s.size ⌊x * (s.size : ℚ)⌋ ⌊y * (s.size : ℚ)⌋) =
      s.velocityY (IX s.size ⌊x * (s.size : ℚ)⌋ ⌊y * (s.size : ℚ)⌋) + vy / 1000 * f := by
  unfold addVelocityImpulse
  rw [if_neg (by omega)]
  exact ⟨upd_same _ _ _, upd_same _ _ _⟩

/-- C2 counterexample: the claim "impulse calls with coordinates outside
[0,1]² are bit-for-bit no-ops" is false.  With `N = 4` the x-coordinate
`21/20 > 1` maps to cell `⌊21/20·4⌋ = 4`, which passes the interior check, so
`addVelocityImpulse` writes velocity and `addImpulse` writes dye. -/
theorem c2_outside_impulse_counterexample :
    (1 : ℚ) < 21 / 20 ∧
    (addVelocityImpulse demoState (21 / 20) (1 / 2) 1000 0 1).velocityX
        (IX demoState.size ⌊(21 / 20 : ℚ) * (demoState.size : ℚ)⌋
          ⌊(1 / 2 : ℚ) * (demoState.size : ℚ)⌋) ≠
      demoState.velocityX
        (IX demoState.size ⌊(21 / 20 : ℚ) * (demoState.size : ℚ)⌋
          ⌊(1 / 2 : ℚ) * (demoState.size : ℚ)⌋) ∧
    (addImpulse demoSqrt demoState (21 / 20) (1 / 2) (1 / 10) 100 0).density
        (IX demoState.size (⌊(21 / 20 : ℚ) * (demoState.size : ℚ)⌋ + 0)
          (⌊(1 / 2 : ℚ) * (demoState.size : ℚ)⌋ + 0)) ≠
      demoState.density
        (IX demoState.size (⌊(21 / 20 : ℚ) * (demoState.size : ℚ)⌋ + 0)
          (⌊(1 / 2 : ℚ) * (demoState.size : ℚ)⌋ + 0)) := by
  have hsz : demoState.size = 4 := rfl
  have hx : ⌊(21 / 20 : ℚ) * ((4 : ℕ) : ℚ)⌋ = 4 := by norm_num [Int.floor_eq_iff]
  have hy : ⌊(1 / 2 : ℚ) * ((4 : ℕ) : ℚ)⌋ = 2 := by norm_num
  have hrad : ⌊(1 / 10 : ℚ) * ((4 : ℕ) : ℚ)⌋ = 0 := by norm_num [Int.floor_eq_iff]
  refine ⟨by norm_num, ?_, ?_⟩
  · have hhit := (addVelocityImpulse_hit demoState (21 / 20) (1 / 2) 1000 0 1
      (by rw [hsz, hx]; decide) (by rw [hsz, hx]; decide)
      (by rw [hsz, hy]; decide) (by rw [hsz, hy]; decide)).1
    rw [hhit]
    have h0 : demoState.velocityX
        (IX demoState.size ⌊(21 / 20 : ℚ) * (demoState.size : ℚ)⌋
          ⌊(1 / 2 : ℚ) * (demoState.size : ℚ)⌋) = 0 := rfl
    rw [h0]
    norm_num
  · have hhit := addImpulse_density_hit demoSqrt demoState (21 / 20) (1 / 2) (1 / 10)
      100 0 (i := 0) (j := 0)
      (by rw [hsz, hrad]; decide) (by rw [hsz, hrad]; decide)
      (by rw [hsz, hrad]; decide) (by rw [hsz, hrad]; decide)
      (by rw [hsz, hx]; decide) (by rw [hsz, hx]; decide)
      (by rw [hsz, hy]; decide) (by rw [hsz, hy]; decide)
      (by rw [hsz, hrad]; norm_num [demoSqrt])
    rw [hhit]
    have h0 : demoState.density
        (IX demoState.size (⌊(21 / 20 : ℚ) * (demoState.size : ℚ)⌋ + 0)
          (⌊(1 / 2 : ℚ) * (demoState.size : ℚ)⌋ + 0)) = 0 := rfl
    rw [h0]
    rw [hsz, hrad]
    norm_num [demoSqrt]

/-- C2 amended: `addVelocityImpulse` leaves the whole state unchanged
whenever the mapped cell `(⌊x·N⌋, ⌊y·N⌋)` lies outside the interior
`[1,N]²`, and `addImpulse` leaves the whole state unchanged whenever the
entire radius-`r` square around the mapped centre lies outside the interior
(in particular whenever the coordinates are far enough outside `[0,1]²`);
no error is reported in either case.  Out-of-[0,1]² coordinates that still
map inside the interior (or within `r` of it) do write fields, as the
counterexample shows. -/
theorem c2_outside_impulse_amended (s : FluidState) (x y : ℚ) :
    (∀ vx vy f : ℚ,
      (⌊x * (s.size : ℚ)⌋ < 1 ∨ ⌊x * (s.size : ℚ)⌋ > (s.size : ℤ) ∨
       ⌊y * (s.size : ℚ)⌋ < 1 ∨ ⌊y * (s.size : ℚ)⌋ > (s.size : ℤ)) →
      addVelocityImpulse s x y vx vy f = s) ∧
    (∀ (sqrtFn : ℚ → ℚ) (radius strength audio : ℚ),
      (⌊x * (s.size : ℚ)⌋ + max ⌊radius * (s.size : ℚ)⌋ 1 < 1 ∨
       ⌊x * (s.size : ℚ)⌋ - max ⌊radius * (s.size : ℚ)⌋ 1 > (s.size : ℤ) ∨
       ⌊y * (s.size : ℚ)⌋ + max ⌊radius * (s.size : ℚ)⌋ 1 < 1 ∨
       ⌊y * (s.size : ℚ)⌋ - max ⌊radius * (s.size : ℚ)⌋ 1 > (s.size : ℤ)) →
      addImpulse sqrtFn s x y radius strength audio = s) := by
  constructor
  · intro vx vy f h
    unfold addVelocityImpulse
    rw [if_pos h]
  · intro sqrtFn radius strength audio h
    have hr1 : 1 ≤ max ⌊radius * (s.size : ℚ)⌋ 1 := le_max_right _ _
    have hd : (addImpulse sqrtFn s x y radius strength audio).density = s.density := by
      have hres : (addImpulse sqrtFn s x y radius strength audio).density =
          List.foldl (impBody sqrtFn s.size ⌊x * (s.size : ℚ)⌋ ⌊y * (s.size : ℚ)⌋
            (max ⌊radius * (s.size : ℚ)⌋ 1) (strength * (1 + audio))) s.density
            (cellList (2 * (max ⌊radius * (s.size : ℚ)⌋ 1).toNat + 1)
              (-(max ⌊radius * (s.size : ℚ)⌋ 1))) := rfl
      rw [hres]
      exact foldl_obs_eq _ (fun (f : Grid) => f) _ s.density
        (fun t off hoff => by
          obtain ⟨hb1, hb2, hb3, hb4⟩ := mem_cellList.mp hoff
          exact impBody_skip sqrtFn s.size _ _ _ _ t off (Or.inl (by omega)))
    calc addImpulse sqrtFn s x y radius strength audio =
        { s with
          density := (addImpulse sqrtFn s x y radius strength audio).density } := rfl
      _ = { s with density := s.density } := by rw [hd]
      _ = s := rfl

/-- Closed witness for `c2_outside_impulse_amended` at `x = -1`. -/
theorem c2_outside_impulse_amended_witness :
    addVelocityImpulse demoState (-1) (1 / 2) 5 5 1 = demoState ∧
    addImpulse demoSqrt demoState (-1) (1 / 2) (1 / 10) 100 0 = demoState :=
  ⟨(c2_outside_impulse_amended demoState (-1) (1 / 2)).1 5 5 1
     (Or.inl (by rw [show demoState.size = 4 from rfl]; norm_num)),
   (c2_outside_impulse_amended demoState (-1) (1 / 2)).2 demoSqrt (1 / 10) 100 0
     (Or.inl (by rw [show demoState.size = 4 from rfl]
                 norm_num [Int.floor_eq_iff]))⟩

/-- Row-major indexing into a flatMap of equal-length rows. -/
theorem flatMap_rows_getElem {α : Type*} (f : ℕ → ℕ → α) (Nc : ℕ) :
    ∀ (m s yy xx : ℕ), yy < m → xx < Nc →
      ((List.range' s m).flatMap fun (j : ℕ) =>
        (List.range Nc).map fun (i : ℕ) => f i j)[yy * Nc + xx]? =
      some (f xx (s + yy)) := by
  intro m
  induction m with
  | zero => intro s yy xx hy _; omega
  | succ m ih =>
      intro s yy xx hy hx
      rw [List.range'_succ, List.flatMap_cons]
      cases yy with
      | zero =>
          rw [List.getElem?_append, if_pos (by simp; omega)]
          simp only [Nat.zero_mul, Nat.zero_add, List.getElem?_map,
            List.getElem?_range hx, Option.map_some', Nat.add_zero]
      | succ z =>
          rw [List.getElem?_append, if_neg (by
            simp only [List.length_map, List.length_range]
            have hmul : (z + 1) * Nc = z * Nc + Nc := by ring
            omega)]
          have harith : (z + 1) * Nc + xx -
              ((List.range Nc).map fun (i : ℕ) => f i s).length = z * Nc + xx := by
            simp only [List.length_map, List.length_range]
            have : (z + 1) * Nc = z * Nc + Nc := by ring
            omega
          rw [harith, ih (s + 1) z xx (by omega) hx]
          have : s + 1 + z = s + (z + 1) := by omega
          rw [this]

/-- Sum of a constant-mapped list. -/
theorem sum_map_const_nat (L : List ℕ) (c : ℕ) : (L.map fun _ => c).sum = L.length * c := by
  induction L with
  | nil => simp
  | cons a L ih => simp [ih, Nat.succ_mul, Nat.add_comm]

/-- C4: `getDyeField` returns a fresh buffer of exactly `N×N` entries holding
the interior sub-block of `density` in row-major order, each value clamped by
`min 1 (max 0 ·)`, so every output lies in `[0,1]`; the solver state is not
modified (the operation is a pure function of the state). -/
theorem c4_getDyeField_clamp (s : FluidState) :
    (getDyeField s).size = s.size ∧
    (getDyeField s).data.length = s.size * s.size ∧
    (∀ xx yy : ℕ, 1 ≤ xx → xx ≤ s.size → 1 ≤ yy → yy ≤ s.size →
      (getDyeField s).data[(yy - 1) * s.size + (xx - 1)]? =
        some (min 1 (max 0 (s.density (IX s.size (xx : ℤ) (yy : ℤ)))))) ∧
    (∀ v ∈ (getDyeField s).data, 0 ≤ v ∧ v ≤ 1) := by
  refine ⟨rfl, ?_, ?_, ?_⟩
  · show ((List.range s.size).flatMap fun (ym1 : ℕ) =>
      (List.range s.size).map fun (xm1 : ℕ) =>
        min 1 (max 0 (s.density (IX s.size ((xm1 : ℤ) + 1) ((ym1 : ℤ) + 1))))).length =
      s.size * s.size
    rw [List.length_flatMap]
    have : (List.map (List.length ∘ fun (ym1 : ℕ) =>
        (List.range s.size).map fun (xm1 : ℕ) =>
          min 1 (max 0 (s.density (IX s.size ((xm1 : ℤ) + 1) ((ym1 : ℤ) + 1)))))
        (List.range s.size)) = (List.range s.size).map fun _ => s.size := by
      refine List.map_congr_left (fun a _ => ?_)
      simp [List.length_map, List.length_range]
    rw [this, sum_map_const_nat, List.length_range]
  · intro xx yy hx1 hx2 hy1 hy2
    have hmain := flatMap_rows_getElem
      (fun (i j : ℕ) => min 1 (max 0 (s.density (IX s.size ((i : ℤ) + 1) ((j : ℤ) + 1)))))
      s.size s.size 0 (yy - 1) (xx - 1) (by omega) (by omega)
    rw [← List.range_eq_range'] at hmain
    have hgd : (getDyeField s).data =
        (List.range s.size).flatMap fun (ym1 : ℕ) =>
          (List.range s.size).map fun (xm1 : ℕ) =>
            min 1 (max 0 (s.density (IX s.size ((xm1 : ℤ) + 1) ((ym1 : ℤ) + 1)))) := rfl
    rw [hgd, hmain]
    have hcx : ((xx - 1 : ℕ) : ℤ) + 1 = (xx : ℤ) := by omega
    have hcy : ((0 + (yy - 1) : ℕ) : ℤ) + 1 = (yy : ℤ) := by omega
    dsimp only
    rw [hcx, hcy]
  · intro v hv
    have hgd : (getDyeField s).data =
        (List.range s.size).flatMap fun (ym1 : ℕ) =>
          (List.range s.size).map fun (xm1 : ℕ) =>
            min 1 (max 0 (s.density (IX s.size ((xm1 : ℤ) + 1) ((ym1 : ℤ) + 1)))) := rfl
    rw [hgd] at hv
    obtain ⟨j, _, hvr⟩ := List.mem_flatMap.mp hv
    obtain ⟨i, _, rfl⟩ := List.mem_map.mp hvr
    constructor
    · exact le_min (by norm_num) (le_max_left 0 _)
    · exact min_le_left 1 _

/-- Closed witness for `c4_getDyeField_clamp` on the demo state. -/
theorem c4_getDyeField_clamp_witness :
    (getDyeField demoState).size = demoState.size ∧
    (getDyeField demoState).data[(1 - 1) * demoState.size + (1 - 1)]? =
      some (min 1 (max 0 (demoState.density (IX demoState.size ((1 : ℕ) : ℤ) ((1 : ℕ) : ℤ))))) :=
  ⟨(c4_getDyeField_clamp demoState).1,
   (c4_getDyeField_clamp demoState).2.2.1 1 1 (by decide) (by decide) (by decide) (by decide)⟩

/-- The linear index of any cell of the `(N+2)×(N+2)` box lies inside the
allocated array range `[0, (N+2)²)`. -/
theorem IX_bounds (N : ℕ) {x y : ℤ} (hx1 : 0 ≤ x) (hx2 : x ≤ (N : ℤ) + 1)
    (hy1 : 0 ≤ y) (hy2 : y ≤ (N : ℤ) + 1) :
    0 ≤ IX N x y ∧ IX N x y < ((N : ℤ) + 2) * ((N : ℤ) + 2) := by
  unfold IX
  constructor
  · have h := mul_nonneg (show (0 : ℤ) ≤ (N : ℤ) + 2 by omega) hy1
    linarith
  · have h := mul_le_mul_of_nonneg_left hy2 (show (0 : ℤ) ≤ (N : ℤ) + 2 by omega)
    nlinarith

/-- The clamped backtrace coordinate of `advect` floors into `[0, N]`. -/
theorem clampFloor_bounds (N : ℕ) (q : ℚ) :
    0 ≤ ⌊if (if q < 1 / 2 then (1 : ℚ) / 2 else q) > (N : ℚ) + 1 / 2 then (N : ℚ) + 1 / 2
        else if q < 1 / 2 then (1 : ℚ) / 2 else q⌋ ∧
    ⌊if (if q < 1 / 2 then (1 : ℚ) / 2 else q) > (N : ℚ) + 1 / 2 then (N : ℚ) + 1 / 2
        else if q < 1 / 2 then (1 : ℚ) / 2 else q⌋ ≤ (N : ℤ) := by
  have hN0 : (0 : ℚ) ≤ (N : ℚ) := Nat.cast_nonneg N
  have hv : (1 : ℚ) / 2 ≤
      (if (if q < 1 / 2 then (1 : ℚ) / 2 else q) > (N : ℚ) + 1 / 2 then (N : ℚ) + 1 / 2
        else if q < 1 / 2 then (1 : ℚ) / 2 else q) ∧
      (if (if q < 1 / 2 then (1 : ℚ) / 2 else q) > (N : ℚ) + 1 / 2 then (N : ℚ) + 1 / 2
        else if q < 1 / 2 then (1 : ℚ) / 2 else q) ≤ (N : ℚ) + 1 / 2 := by
    split_ifs <;> constructor <;> linarith
  constructor
  · rw [Int.le_floor]
    push_cast
    linarith [hv.1]
  · have hlt : ⌊if (if q < 1 / 2 then (1 : ℚ) / 2 else q) > (N : ℚ) + 1 / 2 then
        (N : ℚ) + 1 / 2 else if q < 1 / 2 then (1 : ℚ) / 2 else q⌋ < (N : ℤ) + 1 := by
      rw [Int.floor_lt]
      push_cast
      linarith [hv.2]
    omega

/-- Bilinear blends agree when the sampled values agree. -/
theorem bilinear_congr (d0 d0' : Grid) (s0 s1 t0 t1 : ℚ) {A B C D : ℤ}
    (hA : d0 A = d0' A) (hB : d0 B = d0' B) (hC : d0 C = d0' C) (hD : d0 D = d0' D) :
    s0 * (t0 * d0 A + t1 * d0 B) + s1 * (t0 * d0 C + t1 * d0 D) =
      s0 * (t0 * d0' A + t1 * d0' B) + s1 * (t0 * d0' C + t1 * d0' D) := by
  rw [hA, hB, hC, hD]

/-- One advection cell update reads its inputs only at allocated indices:
changing them outside `[0, (N+2)²)` cannot change the update. -/
theorem advBody_congr (N : ℕ) (dt0 : ℚ) (d0 d0' vx vx' vy vy' : Grid) (t : Grid)
    (p : ℤ × ℤ) (hp1 : 1 ≤ p.1) (hp2 : p.1 ≤ (N : ℤ)) (hp3 : 1 ≤ p.2)
    (hp4 : p.2 ≤ (N : ℤ))
    (h : ∀ idx : ℤ, 0 ≤ idx → idx < ((N : ℤ) + 2) * ((N : ℤ) + 2) →
      d0 idx = d0' idx ∧ vx idx = vx' idx ∧ vy idx = vy' idx) :
    advBody N dt0 d0 vx vy t p = advBody N dt0 d0' vx' vy' t p := by
  obtain ⟨hd, hvx, hvy⟩ := h (IX N p.1 p.2)
    (IX_bounds N (by omega) (by omega) (by omega) (by omega)).1
    (IX_bounds N (by omega) (by omega) (by omega) (by omega)).2
  unfold advBody
  dsimp only
  rw [hvx, hvy]
  set qx : ℚ := (p.1 : ℚ) - dt0 * vx' (IX N p.1 p.2) with hqx
  set qy : ℚ := (p.2 : ℚ) - dt0 * vy' (IX N p.1 p.2) with hqy
  set i0 : ℤ := ⌊if (if qx < 1 / 2 then (1 : ℚ) / 2 else qx) > (N : ℚ) + 1 / 2 then
      (N : ℚ) + 1 / 2 else if qx < 1 / 2 then (1 : ℚ) / 2 else qx⌋ with hi0
  set j0 : ℤ := ⌊if (if qy < 1 / 2 then (1 : ℚ) / 2 else qy) > (N : ℚ) + 1 / 2 then
      (N : ℚ) + 1 / 2 else if qy < 1 / 2 then (1 : ℚ) / 2 else qy⌋ with hj0
  have hbx := clampFloor_bounds N qx
  have hby := clampFloor_bounds N qy
  rw [← hi0] at hbx
  rw [← hj0] at hby
  have hA := (h (IX N i0 j0)
    (IX_bounds N (by omega) (by omega) (by omega) (by omega)).1
    (IX_bounds N (by omega) (by omega) (by omega) (by omega)).2).1
  have hB := (h (IX N i0 (j0 + 1))
    (IX_bounds N (by omega) (by omega) (by omega) (by omega)).1
    (IX_bounds N (by omega) (by omega) (by omega) (by omega)).2).1
  have hC := (h (IX N (i0 + 1) j0)
    (IX_bounds N (by omega) (by omega) (by omega) (by omega)).1
    (IX_bounds N (by omega) (by omega) (by omega) (by omega)).2).1
  have hD := (h (IX N (i0 + 1) (j0 + 1))
    (IX_bounds N (by omega) (by omega) (by omega) (by omega)).1
    (IX_bounds N (by omega) (by omega) (by omega) (by omega)).2).1
  exact congrArg (upd t (IX N p.1 p.2)) (bilinear_congr d0 d0' _ _ _ _ hA hB hC hD)

/-- `addVelocityImpulse` writes only the single mapped interior cell. -/
theorem addVelocityImpulse_preserve (s : FluidState) (x y vx vy f : ℚ) {idx : ℤ}
    (h : ∀ px py : ℤ, 1 ≤ px → px ≤ (s.size : ℤ) → 1 ≤ py → py ≤ (s.size : ℤ) →
      idx ≠ IX s.size px py) :
    (addVelocityImpulse s x y vx vy f).velocityX idx = s.velocityX idx ∧
    (addVelocityImpulse s x y vx vy f).velocityY idx = s.velocityY idx := by
  unfold addVelocityImpulse
  by_cases hc : ⌊x * (s.size : ℚ)⌋ < 1 ∨ ⌊x * (s.size : ℚ)⌋ > (s.size : ℤ) ∨
      ⌊y * (s.size : ℚ)⌋ < 1 ∨ ⌊y * (s.size : ℚ)⌋ > (s.size : ℤ)
  · rw [if_pos hc]
    exact ⟨rfl, rfl⟩
  · rw [if_neg hc]
    push_neg at hc
    constructor <;>
      exact upd_ne _ _ _ (h _ _ (by omega) (by omega) (by omega) (by omega))

/-- `getDyeField` reads `density` only at allocated indices. -/
theorem getDyeField_congr (s1 s2 : FluidState) (hsz : s1.size = s2.size)
    (h : ∀ idx : ℤ, 0 ≤ idx → idx < ((s1.size : ℤ) + 2) * ((s1.size : ℤ) + 2) →
      s1.density idx = s2.density idx) :
    getDyeField s1 = getDyeField s2 := by
  unfold getDyeField
  dsimp only
  rw [← hsz]
  have hdata : ∀ ym1 ∈ List.range s1.size,
      ((List.range s1.size).map fun (xm1 : ℕ) =>
        min 1 (max 0 (s1.density (IX s1.size ((xm1 : ℤ) + 1) ((ym1 : ℤ) + 1))))) =
      ((List.range s1.size).map fun (xm1 : ℕ) =>
        min 1 (max 0 (s2.density (IX s1.size ((xm1 : ℤ) + 1) ((ym1 : ℤ) + 1))))) := by
    intro ym1 hym1
    rw [List.mem_range] at hym1
    refine List.map_congr_left (fun xm1 hxm1 => ?_)
    rw [List.mem_range] at hxm1
    rw [h (IX s1.size ((xm1 : ℤ) + 1) ((ym1 : ℤ) + 1))
      (IX_bounds s1.size (by omega) (by omega) (by omega) (by omega)).1
      (IX_bounds s1.size (by omega) (by omega) (by omega) (by omega)).2]
  rw [List.flatMap_def, List.flatMap_def, List.map_congr_left hdata]

/-- C10: every array index the solver computes lies in `[0, (N+2)²)`: the
linear index of any box cell is in range; the clamped backtrace coordinate of
`advect` floors into `[0, N]` so all four bilinear sample cells stay inside
the box, and `advect`'s result is unchanged by modifying its source and
velocity inputs outside the allocated range; the impulse routines write only
interior cells `[1,N]²`; and `getDyeField` reads only allocated indices. -/
theorem c10_index_safety :
    (∀ (N : ℕ) (x y : ℤ), 0 ≤ x → x ≤ (N : ℤ) + 1 → 0 ≤ y → y ≤ (N : ℤ) + 1 →
      0 ≤ IX N x y ∧ IX N x y < ((N : ℤ) + 2) * ((N : ℤ) + 2)) ∧
    (∀ (N : ℕ) (q : ℚ),
      0 ≤ ⌊if (if q < 1 / 2 then (1 : ℚ) / 2 else q) > (N : ℚ) + 1 / 2 then
          (N : ℚ) + 1 / 2 else if q < 1 / 2 then (1 : ℚ) / 2 else q⌋ ∧
      ⌊if (if q < 1 / 2 then (1 : ℚ) / 2 else q) > (N : ℚ) + 1 / 2 then
          (N : ℚ) + 1 / 2 else if q < 1 / 2 then (1 : ℚ) / 2 else q⌋ ≤ (N : ℤ)) ∧
    (∀ (N b : ℕ) (d d0 d0' vx vx' vy vy' : Grid) (dt : ℚ),
      (∀ idx : ℤ, 0 ≤ idx → idx < ((N : ℤ) + 2) * ((N : ℤ) + 2) →
        d0 idx = d0' idx ∧ vx idx = vx' idx ∧ vy idx = vy' idx) →
      advect N b d d0 vx vy dt = advect N b d d0' vx' vy' dt) ∧
    (∀ (sqrtFn : ℚ → ℚ) (s : FluidState) (x y radius strength audio : ℚ) (idx : ℤ),
      (∀ px py : ℤ, 1 ≤ px → px ≤ (s.size : ℤ) → 1 ≤ py → py ≤ (s.size : ℤ) →
        idx ≠ IX s.size px py) →
      (addImpulse sqrtFn s x y radius strength audio).density idx = s.density idx) ∧
    (∀ (s : FluidState) (x y vx vy f : ℚ) (idx : ℤ),
      (∀ px py : ℤ, 1 ≤ px → px ≤ (s.size : ℤ) → 1 ≤ py → py ≤ (s.size : ℤ) →
        idx ≠ IX s.size px py) →
      (addVelocityImpulse s x y vx vy f).velocityX idx = s.velocityX idx ∧
      (addVelocityImpulse s x y vx vy f).velocityY idx = s.velocityY idx) ∧
    (∀ s1 s2 : FluidState, s1.size = s2.size →
      (∀ idx : ℤ, 0 ≤ idx → idx < ((s1.size : ℤ) + 2) * ((s1.size : ℤ) + 2) →
        s1.density idx = s2.density idx) →
      getDyeField s1 = getDyeField s2) := by
  refine ⟨fun N x y h1 h2 h3 h4 => IX_bounds N h1 h2 h3 h4,
    fun N q => clampFloor_bounds N q, ?_,
    fun sqrtFn s x y radius strength audio idx h =>
      addImpulse_density_preserve sqrtFn s x y radius strength audio h,
    fun s x y vx vy f idx h => addVelocityImpulse_preserve s x y vx vy f h,
    fun s1 s2 hsz h => getDyeField_congr s1 s2 hsz h⟩
  intro N b d d0 d0' vx vx' vy vy' dt h
  unfold advect
  exact congrArg (setBounds N b)
    (foldl_congr_body _ _ (cellList N 1) d (fun t p hp => by
      obtain ⟨hb1, hb2, hb3, hb4⟩ := mem_cellList.mp hp
      exact advBody_congr N (dt * (N : ℚ)) d0 d0' vx vx' vy vy' t p
        hb1 (by omega) hb3 (by omega) h))

/-- Closed witness for `c10_index_safety`. -/
theorem c10_index_safety_witness :
    (0 ≤ IX 2 1 1 ∧ IX 2 1 1 < ((2 : ℤ) + 2) * ((2 : ℤ) + 2)) ∧
    advect 2 0 zg zg zg zg 1 = advect 2 0 zg zg zg zg 1 ∧
    getDyeField demoState = getDyeField demoState :=
  ⟨c10_index_safety.1 2 1 1 (by decide) (by decide) (by decide) (by decide),
   c10_index_safety.2.2.1 2 0 zg zg zg zg zg zg zg 1 (fun idx h1 h2 => ⟨rfl, rfl, rfl⟩),
   c10_index_safety.2.2.2.2.2 demoState demoState rfl (fun idx h1 h2 => rfl)⟩

/-- Updating a zero grid with a zero value keeps it zero. -/
theorem upd_zero (f : Grid) (i : ℤ) (v : ℚ) (hf : ∀ k, f k = 0) (hv : v = 0) :
    ∀ k, upd f i v k = 0 := by
  intro k
  by_cases h : k = i
  · rw [h, upd_same]
    exact hv
  · rw [upd_ne _ _ _ h]
    exact hf k

/-- Variant of `upd_zero` whose value hypothesis may use the grid fact. -/
theorem upd_zero' (f : Grid) (i : ℤ) (v : ℚ) (hf : ∀ k, f k = 0)
    (hv : (∀ k, f k = 0) → v = 0) : ∀ k, upd f i v k = 0 :=
  upd_zero f i v hf (hv hf)

/-- The edge pass preserves the all-zero grid. -/
theorem setBoundsEdges_zero (N b : ℕ) (x : Grid) (hx : ∀ k, x k = 0) :
    ∀ k, setBoundsEdges N b x k = 0 := by
  unfold setBoundsEdges
  refine foldl_pred (sbeBody N b) (fun f => ∀ k, f k = 0) _ x (fun t k _ ht => ?_) hx
  unfold sbeBody
  dsimp only
  refine upd_zero' _ _ _ (upd_zero' _ _ _ (upd_zero' _ _ _ (upd_zero' _ _ _ ht ?_) ?_) ?_) ?_ <;>
    exact fun h => by simp [h]

/-- The boundary rule preserves the all-zero grid. -/
theorem setBounds_zero (N b : ℕ) (x : Grid) (hx : ∀ k, x k = 0) :
    ∀ k, setBounds N b x k = 0 := by
  unfold setBounds
  refine upd_zero' _ _ _ (upd_zero' _ _ _ (upd_zero' _ _ _ (upd_zero' _ _ _
    (setBoundsEdges_zero N b x hx) ?_) ?_) ?_) ?_ <;>
    exact fun h => by rw [h, h]; norm_num

/-- A Gauss-Seidel sweep with zero source preserves the all-zero grid. -/
theorem lsSweep_zero (N : ℕ) (a c : ℚ) (x0 x : Grid) (h0 : ∀ k, x0 k = 0)
    (hx : ∀ k, x k = 0) : ∀ k, lsSweep N a c x0 x k = 0 := by
  unfold lsSweep
  refine foldl_pred (lsBody N a c x0) (fun f => ∀ k, f k = 0) _ x (fun t q _ ht => ?_) hx
  unfold lsBody
  exact upd_zero _ _ _ ht (by simp [h0, ht])

/-- The relaxation loop with zero source preserves the all-zero grid. -/
theorem linearSolve_zero (N K b : ℕ) (x x0 : Grid) (a c : ℚ) (hx : ∀ k, x k = 0)
    (h0 : ∀ k, x0 k = 0) : ∀ k, linearSolve N K b x x0 a c k = 0 := by
  unfold linearSolve
  induction K with
  | zero => exact hx
  | succ m ih =>
      intro k
      rw [Function.iterate_succ_apply']
      exact setBounds_zero N b _ (lsSweep_zero N a c x0 _ h0 ih) k

/-- Advection of an all-zero field yields an all-zero field, for any
velocities. -/
theorem advect_zero (N b : ℕ) (d d0 vx vy : Grid) (dt : ℚ) (hd : ∀ k, d k = 0)
    (h0 : ∀ k, d0 k = 0) : ∀ k, advect N b d d0 vx vy dt k = 0 := by
  unfold advect
  refine setBounds_zero N b _ (foldl_pred (advBody N (dt * (N : ℚ)) d0 vx vy)
    (fun f => ∀ k, f k = 0) _ d (fun t q _ ht => ?_) hd)
  unfold advBody
  dsimp only
  exact upd_zero _ _ _ ht (by simp [h0])

/-- The dissipation loop preserves the all-zero grid. -/
theorem applyDissipation_zero (gsz : ℕ) (factor : ℚ) (d : Grid) (hd : ∀ k, d k = 0) :
    ∀ k, applyDissipation gsz factor d k = 0 := by
  unfold applyDissipation
  refine foldl_pred (disBody factor) (fun f => ∀ k, f k = 0) _ d (fun t q _ ht => ?_) hd
  unfold disBody
  exact upd_zero _ _ _ ht (by simp [ht])

/-- A step from any state with zero dye in both dye buffers produces zero
dye, regardless of the velocity fields. -/
theorem step_density_zero (hypotFn : ℚ → ℚ → ℚ) (s : FluidState) (dt : ℚ)
    (hd : ∀ k, s.density k = 0) (hdp : ∀ k, s.densityPrev k = 0) :
    ∀ k, (step hypotFn s dt).density k = 0 := by
  have key : ∃ VX VY : Grid, (step hypotFn s dt).density =
      applyDissipation ((s.size + 2) * (s.size + 2)) s.config.dissipation
        (advect s.size 0 s.density
          (diffuse s.size s.config.pressureIterations 0 s.densityPrev s.density
            s.config.diffusion dt) VX VY dt) := ⟨_, _, rfl⟩
  obtain ⟨VX, VY, hkey⟩ := key
  rw [hkey]
  have hdp1 : ∀ k, diffuse s.size s.config.pressureIterations 0 s.densityPrev s.density
      s.config.diffusion dt k = 0 :=
    linearSolve_zero s.size s.config.pressureIterations 0 s.densityPrev s.density _ _ hdp hd
  exact applyDissipation_zero _ _ _ (advect_zero s.size 0 s.density _ VX VY dt hd hdp1)

/-- One dissipation-loop iteration leaves other indices unchanged. -/
theorem disBody_preserve (factor : ℚ) (t : Grid) (k : ℕ) {idx : ℤ}
    (h : idx ≠ (k : ℤ)) : disBody factor t k idx = t idx := by
  unfold disBody
  exact upd_ne _ _ _ h

/-- One dissipation-loop iteration scales its own cell by the factor. -/
theorem disBody_at (factor : ℚ) (t : Grid) (k : ℕ) :
    disBody factor t k ((k : ℕ) : ℤ) = t ((k : ℕ) : ℤ) * factor := by
  unfold disBody
  rw [upd_same]

/-- Value of the dissipation loop at an in-range index. -/
theorem applyDissipation_at (gsz : ℕ) (factor : ℚ) (d : Grid) {idx : ℤ}
    (h1 : 0 ≤ idx) (h2 : idx < (gsz : ℤ)) :
    applyDissipation gsz factor d idx = d idx * factor := by
  have hnat : idx.toNat < gsz := by omega
  have hcast : ((idx.toNat : ℕ) : ℤ) = idx := by omega
  unfold applyDissipation
  rw [foldl_range_split (disBody factor) d hnat]
  have houter : (List.range' (idx.toNat + 1) (gsz - idx.toNat - 1)).foldl (disBody factor)
      (disBody factor ((List.range idx.toNat).foldl (disBody factor) d) idx.toNat) idx =
      disBody factor ((List.range idx.toNat).foldl (disBody factor) d) idx.toNat idx :=
    foldl_obs_eq (disBody factor) (fun (f : Grid) => f idx) _ _
      (fun t k hk => by
        rw [List.mem_range'_1] at hk
        exact disBody_preserve factor t k (by omega))
  rw [houter]
  have hinner : (List.range idx.toNat).foldl (disBody factor) d idx = d idx :=
    foldl_obs_eq (disBody factor) (fun (f : Grid) => f idx) _ d
      (fun t k hk => by
        have := List.mem_range.mp hk
        exact disBody_preserve factor t k (by omega))
  have hfin := disBody_at factor ((List.range idx.toNat).foldl (disBody factor) d) idx.toNat
  rw [hcast] at hfin
  rw [hfin, hinner]

/-- The dissipation loop never touches indices outside `[0, gsz)`. -/
theorem applyDissipation_outside (gsz : ℕ) (factor : ℚ) (d : Grid) {idx : ℤ}
    (h : idx < 0 ∨ (gsz : ℤ) ≤ idx) : applyDissipation gsz factor d idx = d idx := by
  unfold applyDissipation
  exact foldl_obs_eq (disBody factor) (fun (f : Grid) => f idx) _ d
    (fun t k hk => by
      have := List.mem_range.mp hk
      exact disBody_preserve factor t k (by omega))

/-- Sums of constant right multiples. -/
theorem sum_map_mul_rat {α : Type*} (L : List α) (f : α → ℚ) (c : ℚ) :
    (L.map fun a => f a * c).sum = (L.map f).sum * c := by
  induction L with
  | nil => simp
  | cons a L ih => simp [ih, add_mul]

/-- The dissipation loop scales the total over its range by exactly the
factor. -/
theorem applyDissipation_sum (gsz : ℕ) (factor : ℚ) (d : Grid) :
    ((List.range gsz).map fun (i : ℕ) => applyDissipation gsz factor d (i : ℤ)).sum =
      ((List.range gsz).map fun (i : ℕ) => d (i : ℤ)).sum * factor := by
  have hmap : (List.range gsz).map (fun (i : ℕ) => applyDissipation gsz factor d (i : ℤ)) =
      (List.range gsz).map (fun (i : ℕ) => d (i : ℤ) * factor) :=
    List.map_congr_left fun (i : ℕ) hi =>
      applyDissipation_at gsz factor d (by omega)
        (by have := List.mem_range.mp hi; omega)
  rw [hmap, sum_map_mul_rat]

/-- The dye written by `step` is exactly the dissipation loop applied to the
advected dye field. -/
theorem step_density_eq (hypotFn : ℚ → ℚ → ℚ) (s : FluidState) (dt : ℚ) :
    ∃ dAdv : Grid, (step hypotFn s dt).density =
      applyDissipation ((s.size + 2) * (s.size + 2)) s.config.dissipation dAdv :=
  ⟨_, rfl⟩

/-- **C8** (counterexample). The claim that total dye *strictly* decreases
from every starting state whenever dissipation < 1 is false: from the all-zero
state with dissipation 1/2 the total dye is 0 before and after a step, so it
does not strictly decrease. -/
theorem c8_dissipation_decay_counterexample :
    demoState8.config.dissipation < 1 ∧
    totalDye (step demoHypot demoState8 1) = totalDye demoState8 ∧
    ¬ totalDye (step demoHypot demoState8 1) < totalDye demoState8 := by
  have hz := step_density_zero demoHypot demoState8 1 (fun _ => rfl) (fun _ => rfl)
  have heq : totalDye (step demoHypot demoState8 1) = totalDye demoState8 := by
    unfold totalDye
    have hsz : (step demoHypot demoState8 1).size = demoState8.size := rfl
    rw [hsz]
    refine congrArg List.sum (List.map_congr_left fun (i : ℕ) _ => ?_)
    rw [hz]
    rfl
  refine ⟨by norm_num [demoState8, demoCfg8, construct], heq, ?_⟩
  rw [heq]
  exact lt_irrefl _

/-- **C8** (amended). What the dissipation stage actually guarantees: it
multiplies every in-range dye cell by the factor (so it is the identity when
the factor is 1, and the dissipation multiplication itself never decreases
dye when the factor is 1), it scales the total dye over the grid by exactly
the factor, and every step's dye output is the dissipation loop applied to
the advected dye field — so total dye after a step equals the advected total
times the dissipation factor (a strict decrease needs the advected total to
be positive, which fails e.g. at the zero state). -/
theorem c8_dissipation_decay_amended (gsz : ℕ) (factor : ℚ) (d : Grid) :
    (∀ idx : ℤ, 0 ≤ idx → idx < (gsz : ℤ) →
      applyDissipation gsz factor d idx = d idx * factor) ∧
    (factor = 1 → applyDissipation gsz factor d = d) ∧
    ((List.range gsz).map fun (i : ℕ) => applyDissipation gsz factor d (i : ℤ)).sum =
      ((List.range gsz).map fun (i : ℕ) => d (i : ℤ)).sum * factor ∧
    ∀ (hypotFn : ℚ → ℚ → ℚ) (s : FluidState) (dt : ℚ), ∃ dAdv : Grid,
      (step hypotFn s dt).density =
        applyDissipation ((s.size + 2) * (s.size + 2)) s.config.dissipation dAdv ∧
      totalDye (step hypotFn s dt) =
        ((List.range ((s.size + 2) * (s.size + 2))).map fun (i : ℕ) => dAdv (i : ℤ)).sum *
          s.config.dissipation := by
  refine ⟨fun idx h1 h2 => applyDissipation_at gsz factor d h1 h2, ?_,
    applyDissipation_sum gsz factor d, ?_⟩
  · intro hf
    funext idx
    by_cases h : 0 ≤ idx ∧ idx < (gsz : ℤ)
    · rw [applyDissipation_at gsz factor d h.1 h.2, hf, mul_one]
    · exact applyDissipation_outside gsz factor d (by omega)
  · intro hypotFn s dt
    obtain ⟨dAdv, hAdv⟩ := step_density_eq hypotFn s dt
    refine ⟨dAdv, hAdv, ?_⟩
    have hsz : (step hypotFn s dt).size = s.size := rfl
    unfold totalDye
    rw [hsz]
    have hmap : (List.range ((s.size + 2) * (s.size + 2))).map
        (fun (i : ℕ) => (step hypotFn s dt).density (i : ℤ)) =
        (List.range ((s.size + 2) * (s.size + 2))).map
        (fun (i : ℕ) => applyDissipation ((s.size + 2) * (s.size + 2))
          s.config.dissipation dAdv (i : ℤ)) :=
      List.map_congr_left fun (i : ℕ) _ => by rw [hAdv]
    rw [hmap]
    exact applyDissipation_sum _ _ _

/-- Closed instance of the amended C8 theorem: concrete per-cell scaling and
the identity at factor 1. -/
theorem c8_dissipation_decay_amended_witness :
    applyDissipation 16 (1 / 2) zg 5 = zg 5 * (1 / 2) ∧ applyDissipation 16 1 zg = zg :=
  ⟨(c8_dissipation_decay_amended 16 (1 / 2) zg).1 5 (by decide) (by decide),
   (c8_dissipation_decay_amended 16 1 zg).2.1 rfl⟩

end EulerianFluid2D
